import Mathlib

/-!
bodybench: arena allocator, planet pool and pairwise integrator.

A shallow embedding of `src/body.c`.

* `size_t` values are natural numbers, reduced modulo `2 ^ 64` wherever the C code
  does arithmetic on them.
* Pointers are natural numbers (addresses); `NULL` is address `0`.
* A C `float` is a `CFloat F`: either a finite value of a field `F` (exact
  arithmetic, no rounding) or `nan`, a value that is not a finite number.
* `distanceMagnitude`, which `UpdatePairwise` uses and the source does not define, is a
  parameter of the functions that need it.
* The arena's storage is a `Memory F`: the `Planet` record found at each address.
-/

namespace BodyBench

/-! ## Constants and machine arithmetic -/

/-- Number of values of a `size_t` (64 bit). -/
abbrev SIZE_MOD : Nat := 18446744073709551616

/-- The null pointer. -/
abbrev NULL : Nat := 0

/-- Source: `#define MAX_PLANETS 100`. -/
abbrev MAX_PLANETS : Nat := 100

/-- Value of `sizeof(Planet)`: `char name[30]` padded to 32 bytes, two `float`s of 4 bytes
and three `Vector2` of 8 bytes each. -/
abbrev sizeofPlanet : Nat := 64

/-- Value of `sizeof(new_planet->name)`, the length of `char name[30]`. -/
abbrev sizeofName : Nat := 30

/-! ## C floats under exact arithmetic -/

/-- A C `float` with exact arithmetic on finite values: no rounding, no overflow. `nan` is a
value that is not a finite number; every division by zero gives it, and every operation with a
`nan` operand gives `nan` again, as IEEE arithmetic does with NaN.

IEEE arithmetic makes `x / 0` infinite rather than NaN when `x` is not zero. In `UpdatePairwise`
with a Euclidean `distanceMagnitude` this happens to `forceMagnitude` alone, at distance zero,
and that value is only ever multiplied by `distanceUnit`, which is `0 / 0` there: what the
function stores is the same under both readings. -/
inductive CFloat (F : Type) where
  | fin (x : F) : CFloat F
  | nan : CFloat F
deriving DecidableEq, Repr

namespace CFloat

variable {F : Type} [Field F] [DecidableEq F]

/-- Float addition. -/
def add : CFloat F → CFloat F → CFloat F
  | fin a, fin b => fin (a + b)
  | _, _ => nan

/-- Float subtraction. -/
def sub : CFloat F → CFloat F → CFloat F
  | fin a, fin b => fin (a - b)
  | _, _ => nan

/-- Float multiplication. -/
def mul : CFloat F → CFloat F → CFloat F
  | fin a, fin b => fin (a * b)
  | _, _ => nan

/-- Float division: dividing by zero does not give a finite number. -/
def div : CFloat F → CFloat F → CFloat F
  | fin a, fin b => if b = 0 then nan else fin (a / b)
  | _, _ => nan

/-- Float negation. -/
def neg : CFloat F → CFloat F
  | fin a => fin (-a)
  | nan => nan

instance : Add (CFloat F) := ⟨add⟩
instance : Sub (CFloat F) := ⟨sub⟩
instance : Mul (CFloat F) := ⟨mul⟩
instance : Div (CFloat F) := ⟨div⟩
instance : Neg (CFloat F) := ⟨neg⟩

end CFloat

/-! ## Data model -/

/-- The raylib type `Vector2`: two floats `x` and `y`. -/
structure Vector2 (F : Type) where
  x : CFloat F
  y : CFloat F
deriving DecidableEq, Repr

/-- Source: `struct Planet`. The `name` is the C string held in `char name[30]`: its bytes
before the terminating NUL. -/
structure Planet (F : Type) where
  name : List Nat
  mass : CFloat F
  diameter : CFloat F
  pos : Vector2 F
  velo : Vector2 F
  accel : Vector2 F
deriving DecidableEq, Repr

/-- Source: `struct Arena`. `memory` is the address of the backing block. -/
structure Arena where
  size : Nat
  used : Nat
  memory : Nat
deriving DecidableEq, Repr

/-- Source: `struct PlanetPool`. `pool_array` holds `MAX_PLANETS` pointers to planets, the
arena is held by value (the pool is its only owner). -/
structure PlanetPool where
  pool_array : Fin MAX_PLANETS → Nat
  pool_size : Nat
  arena : Arena

/-- Contents of memory as seen by the pool: the `Planet` record stored at each address. -/
abbrev Memory (F : Type) := Nat → Planet F

/-! ## Arena allocator -/

/-- Source: `InitArena`. `mallocMemory` is what `malloc(size)` returned (`NULL` on failure);
it is stored unchecked. -/
def InitArena (size : Nat) (mallocMemory : Nat) : Arena :=
  { size := size, used := 0, memory := mallocMemory }

/-- Source: `ArenaAllocate`. Returns the pointer (`NULL` when the request is refused) and the
arena after the call. The sum `arena->used + size` is computed in `size_t`. -/
def ArenaAllocate (arena : Arena) (size : Nat) : Nat × Arena :=
  if (arena.used + size) % SIZE_MOD > arena.size then
    (NULL, arena)
  else
    (arena.memory + arena.used, { arena with used := (arena.used + size) % SIZE_MOD })

/-- A run of `ArenaAllocate` requests, one after the other; returns the arena after the last. -/
def ArenaAllocateAll (arena : Arena) : List Nat → Arena
  | [] => arena
  | size :: rest => ArenaAllocateAll (ArenaAllocate arena size).2 rest

/-! ## Planet pool -/

/-- The libc function `strlcpy(dst, src, dstsize)` on C strings: copies the bytes of `src` up to
its first NUL, at most `dstsize - 1` of them, and terminates the copy. -/
def strlcpy (src : List Nat) (dstsize : Nat) : List Nat :=
  (src.takeWhile (fun c => c != 0)).take (dstsize - 1)

/-- Source: `InitPlanetPool`. The three arguments are the results of the three `malloc` calls
(pool record, arena header, backing block), `junk` is the uninitialised content of
`pool_array`. `none` is the `NULL` return. -/
def InitPlanetPool (mallocPool mallocArena mallocMemory : Nat)
    (junk : Fin MAX_PLANETS → Nat) : Option PlanetPool :=
  if mallocPool = NULL then
    none
  else if mallocArena = NULL then
    none
  else
    let arena_size := (MAX_PLANETS * sizeofPlanet) % SIZE_MOD
    some { pool_array := junk, pool_size := 0, arena := InitArena arena_size mallocMemory }

/-- Source: `AddPlanet`. Returns the `int` result together with the pool and the memory after
the call. -/
def AddPlanet {F : Type} (pool : PlanetPool) (mem : Memory F) (planet : Planet F) :
    Int × PlanetPool × Memory F :=
  if h : pool.pool_size ≥ MAX_PLANETS then
    (-1, pool, mem)
  else
    let r := ArenaAllocate pool.arena sizeofPlanet
    let new_planet := r.1
    let pool1 : PlanetPool := { pool with arena := r.2 }
    if new_planet = NULL then
      (-1, pool1, mem)
    else
      let record : Planet F :=
        { name := strlcpy planet.name sizeofName
          mass := planet.mass
          diameter := planet.diameter
          pos := planet.pos
          velo := planet.velo
          accel := planet.accel }
      let mem1 := Function.update mem new_planet record
      (1, { pool1 with
              pool_array := Function.update pool1.pool_array
                ⟨pool.pool_size, Nat.lt_of_not_le h⟩ new_planet
              pool_size := (pool.pool_size + 1) % SIZE_MOD },
        mem1)

/-- A run of `AddPlanet` calls, one per planet of the list in order; returns the pool and the
memory after the last call. -/
def AddPlanets {F : Type} (pool : PlanetPool) (mem : Memory F) :
    List (Planet F) → PlanetPool × Memory F
  | [] => (pool, mem)
  | p :: rest => AddPlanets (AddPlanet pool mem p).2.1 (AddPlanet pool mem p).2.2 rest

/-- The record `AddPlanet` writes for `planet`: all fields copied, the name through
`strlcpy`. -/
def storedRecord {F : Type} (planet : Planet F) : Planet F :=
  { planet with name := strlcpy planet.name sizeofName }

/-- Storage layout of a pool whose backing block starts at `base`: the arena is sized for
`MAX_PLANETS` records, `pool_size` of them are in use, and slot `k` points at offset
`k * sizeof(Planet)`. -/
def PoolInv (base : Nat) (pool : PlanetPool) : Prop :=
  pool.pool_size ≤ MAX_PLANETS ∧
  pool.arena.size = MAX_PLANETS * sizeofPlanet ∧
  pool.arena.memory = base ∧
  pool.arena.used = pool.pool_size * sizeofPlanet ∧
  ∀ k : Fin MAX_PLANETS, k.val < pool.pool_size →
    pool.pool_array k = base + k.val * sizeofPlanet

/-- The pool at `base` holds the planets `qs`: as many as `pool_size`, record `i` being the
copy of the `i`-th planet. -/
def PoolHolds {F : Type} (base : Nat) (pool : PlanetPool) (mem : Memory F)
    (qs : List (Planet F)) : Prop :=
  PoolInv base pool ∧ pool.pool_size = qs.length ∧
  ∀ (i : Nat) (q : Planet F), qs[i]? = some q → mem (base + i * sizeofPlanet) = storedRecord q

/-! ## Physics integrator -/

section Physics

variable {F : Type} [Field F] [DecidableEq F]

/-- Source: `#define GRAVITY 10`, converted to `float` where it is used. -/
def GRAVITY : CFloat F := CFloat.fin 10

/-- Source: `UpdatePairwise`, as a function of the two records its pointer arguments refer to
(two different planets); returns both records after the call.

The identifier `distanceMagnitude` is used by the source without a definition: its value for a
given `distance` is the parameter `distanceMagnitude`. -/
def UpdatePairwise (distanceMagnitude : Vector2 F → CFloat F) (planet1 planet2 : Planet F) :
    Planet F × Planet F :=
  let distance : Vector2 F :=
    { x := planet2.pos.x - planet1.pos.x, y := planet2.pos.y - planet1.pos.y }
  let magnitude := distanceMagnitude distance
  let forceMagnitude := GRAVITY * planet1.mass * planet2.mass / (magnitude * magnitude)
  let distanceUnit : Vector2 F :=
    { x := distance.x / magnitude, y := distance.y / magnitude }
  let accel1 : Vector2 F :=
    { x := forceMagnitude * distanceUnit.x / planet1.mass
      y := forceMagnitude * distanceUnit.y / planet1.mass }
  let accel2 : Vector2 F :=
    { x := -forceMagnitude * distanceUnit.x / planet2.mass
      y := -forceMagnitude * distanceUnit.y / planet2.mass }
  let velo1 : Vector2 F := { x := planet1.velo.x + accel1.x, y := planet1.velo.y + accel1.y }
  let velo2 : Vector2 F := { x := planet2.velo.x + accel2.x, y := planet2.velo.y + accel2.y }
  let pos1 : Vector2 F := { x := planet1.pos.x + velo1.x, y := planet1.pos.y + velo1.y }
  let pos2 : Vector2 F := { x := planet2.pos.x + velo2.x, y := planet2.pos.y + velo2.y }
  ({ planet1 with velo := velo1, pos := pos1 }, { planet2 with velo := velo2, pos := pos2 })

/-- Source: `UpdatePairwise`, statement by statement on memory, for two pointers that may be
equal: every read goes to the memory as left by the writes before it. -/
def UpdatePairwiseAt (distanceMagnitude : Vector2 F → CFloat F) (mem : Memory F)
    (planet1 planet2 : Nat) : Memory F :=
  let distance : Vector2 F :=
    { x := (mem planet2).pos.x - (mem planet1).pos.x
      y := (mem planet2).pos.y - (mem planet1).pos.y }
  let magnitude := distanceMagnitude distance
  let forceMagnitude :=
    GRAVITY * (mem planet1).mass * (mem planet2).mass / (magnitude * magnitude)
  let distanceUnit : Vector2 F :=
    { x := distance.x / magnitude, y := distance.y / magnitude }
  let accel1 : Vector2 F :=
    { x := forceMagnitude * distanceUnit.x / (mem planet1).mass
      y := forceMagnitude * distanceUnit.y / (mem planet1).mass }
  let accel2 : Vector2 F :=
    { x := -forceMagnitude * distanceUnit.x / (mem planet2).mass
      y := -forceMagnitude * distanceUnit.y / (mem planet2).mass }
  let mem1 := Function.update mem planet1
    { mem planet1 with
      velo := { x := (mem planet1).velo.x + accel1.x, y := (mem planet1).velo.y + accel1.y } }
  let mem2 := Function.update mem1 planet2
    { mem1 planet2 with
      velo := { x := (mem1 planet2).velo.x + accel2.x, y := (mem1 planet2).velo.y + accel2.y } }
  let mem3 := Function.update mem2 planet1
    { mem2 planet1 with
      pos := { x := (mem2 planet1).pos.x + (mem2 planet1).velo.x
               y := (mem2 planet1).pos.y + (mem2 planet1).velo.y } }
  Function.update mem3 planet2
    { mem3 planet2 with
      pos := { x := (mem3 planet2).pos.x + (mem3 planet2).velo.x
               y := (mem3 planet2).pos.y + (mem3 planet2).velo.y } }

/-- Source: `CheckCollision`, whose body is `assert(false && ...)`. `none` is the failed
assertion, which ends the process; the assertion is compiled out when `NDEBUG` is defined. -/
def CheckCollision (NDEBUG : Bool) (_p1 _p2 : Nat) : Option Unit :=
  if NDEBUG then some () else none

/-- Source: the inner loop of `UpdateTrajectories`, from the current value of `j` on. -/
def UpdateTrajectories.inner (NDEBUG : Bool) (distanceMagnitude : Vector2 F → CFloat F)
    (planet_pool : PlanetPool) (hsize : planet_pool.pool_size ≤ MAX_PLANETS)
    (i : Nat) (hi : i < planet_pool.pool_size) (j : Nat) (mem : Memory F) :
    Option (Memory F) :=
  if hj : j < planet_pool.pool_size then
    let p1 := planet_pool.pool_array ⟨i, Nat.lt_of_lt_of_le hi hsize⟩
    let p2 := planet_pool.pool_array ⟨j, Nat.lt_of_lt_of_le hj hsize⟩
    let mem1 := UpdatePairwiseAt distanceMagnitude mem p1 p2
    match CheckCollision NDEBUG p1 p2 with
    | none => none
    | some _ =>
      UpdateTrajectories.inner NDEBUG distanceMagnitude planet_pool hsize i hi (j + 1) mem1
  else
    some mem
termination_by planet_pool.pool_size - j

/-- Source: the outer loop of `UpdateTrajectories`, from the current value of `i` on. -/
def UpdateTrajectories.outer (NDEBUG : Bool) (distanceMagnitude : Vector2 F → CFloat F)
    (planet_pool : PlanetPool) (hsize : planet_pool.pool_size ≤ MAX_PLANETS)
    (i : Nat) (mem : Memory F) : Option (Memory F) :=
  if hi : i < planet_pool.pool_size then
    match UpdateTrajectories.inner NDEBUG distanceMagnitude planet_pool hsize i hi (i + 1) mem with
    | none => none
    | some mem1 =>
      UpdateTrajectories.outer NDEBUG distanceMagnitude planet_pool hsize (i + 1) mem1
  else
    some mem
termination_by planet_pool.pool_size - i

/-- Source: `UpdateTrajectories`. The pool holds at most `MAX_PLANETS` planets (`hsize`), so
every read of `pool_array` is inside the array. Returns the memory after the step, or `none`
when the process was ended by a failed assertion. -/
def UpdateTrajectories (NDEBUG : Bool) (distanceMagnitude : Vector2 F → CFloat F)
    (planet_pool : PlanetPool) (hsize : planet_pool.pool_size ≤ MAX_PLANETS)
    (mem : Memory F) : Option (Memory F) :=
  UpdateTrajectories.outer NDEBUG distanceMagnitude planet_pool hsize 0 mem

end Physics

/-! ## Sample data -/

/-- Source: `main`, the planet `earth` (`posX = 720`, `posY = 450`). -/
def earth : Planet ℚ :=
  { name := [69, 97, 114, 116, 104], mass := .fin 20, diameter := .fin 30
    pos := ⟨.fin 870, .fin 600⟩, velo := ⟨.fin (-5 / 2), .fin (7 / 2)⟩
    accel := ⟨.fin 0, .fin 0⟩ }

/-- Source: `main`, the planet `sun`. -/
def sun : Planet ℚ :=
  { name := [83, 117, 110], mass := .fin 500, diameter := .fin 75
    pos := ⟨.fin 720, .fin 450⟩, velo := ⟨.fin 0, .fin 0⟩
    accel := ⟨.fin 0, .fin 0⟩ }

/-- Source: `main`, the planet `mars`. -/
def mars : Planet ℚ :=
  { name := [77, 97, 114, 115], mass := .fin 10, diameter := .fin 25
    pos := ⟨.fin 570, .fin 300⟩, velo := ⟨.fin (-3 / 2), .fin (5 / 2)⟩
    accel := ⟨.fin 0, .fin 0⟩ }

/-- A pool as `InitPlanetPool` returns it when the backing block is at address `4096` and the
slots are zero. -/
def freshPool : PlanetPool :=
  { pool_array := fun _ => 0, pool_size := 0, arena := ⟨6400, 0, 4096⟩ }

/-- A memory without planets: every record has an empty name and non-finite numbers. -/
def blankMemory : Memory ℚ :=
  fun _ => { name := [], mass := .nan, diameter := .nan, pos := ⟨.nan, .nan⟩,
             velo := ⟨.nan, .nan⟩, accel := ⟨.nan, .nan⟩ }

/-- A planet of mass 2 at the origin, moving along `x`. -/
def bodyA : Planet ℚ :=
  { name := [65], mass := .fin 2, diameter := .fin 1
    pos := ⟨.fin 0, .fin 0⟩, velo := ⟨.fin 1, .fin 0⟩
    accel := ⟨.fin 0, .fin 0⟩ }

/-- A planet of mass 5 at `(3, 4)`, at distance 5 from `bodyA`. -/
def bodyB : Planet ℚ :=
  { name := [66], mass := .fin 5, diameter := .fin 1
    pos := ⟨.fin 3, .fin 4⟩, velo := ⟨.fin 0, .fin (-1)⟩
    accel := ⟨.fin 0, .fin 0⟩ }

/-- The planet `mars` placed at the position of `earth`. -/
def marsAtEarth : Planet ℚ :=
  { mars with pos := earth.pos }

/-- Modelled from the spec: `distanceMagnitude = |distanceVector|`, the Euclidean length of the
distance vector, a name the source uses without defining it. Over the rationals the root is
`Rat.sqrt`, which is exact whenever `x * x + y * y` is the square of a rational. -/
def euclideanMagnitude (v : Vector2 ℚ) : CFloat ℚ :=
  match v.x, v.y with
  | .fin x, .fin y => .fin (Rat.sqrt (x * x + y * y))
  | _, _ => .nan

/-- The fresh pool after `earth` and `marsAtEarth` were inserted: two planets at one position. -/
def twinPool : PlanetPool × Memory ℚ :=
  AddPlanets freshPool blankMemory [earth, marsAtEarth]

/-! ## Specification-side definitions for the integrator -/

/-- Slot `k` of `pool_array`, for an index inside the array (`NULL` stands in for an index
outside of it, which no pool of at most `MAX_PLANETS` planets reads). -/
def PlanetPool.slot (pool : PlanetPool) (k : Nat) : Nat :=
  if h : k < MAX_PLANETS then pool.pool_array ⟨k, h⟩ else NULL

/-- The index pairs `(i, j)` with `0 ≤ i < j < n`, in lexicographic order: all pairs of indices
below `n`, first index first, of which those with `i < j` are kept. -/
def indexPairs (n : Nat) : List (Nat × Nat) :=
  (List.product (List.range n) (List.range n)).filter (fun p => decide (p.1 < p.2))

/-- The pair updates of one step, written as a left fold of `UpdatePairwiseAt` over a list of
index pairs. -/
def foldPairs {F : Type} [Field F] [DecidableEq F] (distanceMagnitude : Vector2 F → CFloat F)
    (pool : PlanetPool) (pairs : List (Nat × Nat)) (mem : Memory F) : Memory F :=
  pairs.foldl (fun m p => UpdatePairwiseAt distanceMagnitude m (pool.slot p.1) (pool.slot p.2)) mem

/-- Source: `main`, the calls of `UpdateTrajectories` in successive frames, with no pause and no
insertion in between: `ticks` steps, each on the memory the one before left. -/
def UpdateTrajectories.run {F : Type} [Field F] [DecidableEq F] (NDEBUG : Bool)
    (distanceMagnitude : Vector2 F → CFloat F) (planet_pool : PlanetPool)
    (hsize : planet_pool.pool_size ≤ MAX_PLANETS) : Nat → Memory F → Option (Memory F)
  | 0, mem => some mem
  | ticks + 1, mem =>
    match UpdateTrajectories NDEBUG distanceMagnitude planet_pool hsize mem with
    | none => none
    | some mem1 => UpdateTrajectories.run NDEBUG distanceMagnitude planet_pool hsize ticks mem1

/-- The index pairs in the order the two loops of `UpdateTrajectories` visit them: for each `i`
below `n` in turn, the pairs `(i, j)` for `j` from `i + 1` up to `n - 1`. -/
def loopPairs (n : Nat) : List (Nat × Nat) :=
  (List.range n).flatMap (fun i => (List.range' (i + 1) (n - (i + 1))).map (fun j => (i, j)))

/-- Source: `main`, the pool and the memory after `earth`, `sun` and `mars` were inserted in
that order into the fresh pool. -/
def mainPool : PlanetPool × Memory ℚ :=
  AddPlanets freshPool blankMemory [earth, sun, mars]

/-- The fresh pool after `earth` alone was inserted. -/
def lonePool : PlanetPool × Memory ℚ :=
  AddPlanets freshPool blankMemory [earth]

/-- The planet `earth` under a name of 40 bytes, each the letter `A`. -/
def longNamed : Planet ℚ :=
  { earth with name := List.replicate 40 65 }

/-- A planet of mass 1 at rest at the origin. -/
def lineA : Planet ℚ :=
  { name := [97], mass := .fin 1, diameter := .fin 1
    pos := ⟨.fin 0, .fin 0⟩, velo := ⟨.fin 0, .fin 0⟩
    accel := ⟨.fin 0, .fin 0⟩ }

/-- A planet of mass 1 at rest at `(10, 0)`. -/
def lineB : Planet ℚ :=
  { name := [98], mass := .fin 1, diameter := .fin 1
    pos := ⟨.fin 10, .fin 0⟩, velo := ⟨.fin 0, .fin 0⟩
    accel := ⟨.fin 0, .fin 0⟩ }

/-- A planet of mass 1 at rest at `(-10, 0)`. -/
def lineC : Planet ℚ :=
  { name := [99], mass := .fin 1, diameter := .fin 1
    pos := ⟨.fin (-10), .fin 0⟩, velo := ⟨.fin 0, .fin 0⟩
    accel := ⟨.fin 0, .fin 0⟩ }

/-- The fresh pool after `lineA`, `lineB`, `lineC` were inserted in that order. -/
def linePoolABC : PlanetPool × Memory ℚ :=
  AddPlanets freshPool blankMemory [lineA, lineB, lineC]

/-- The fresh pool after `lineA`, `lineC`, `lineB` were inserted in that order. -/
def linePoolACB : PlanetPool × Memory ℚ :=
  AddPlanets freshPool blankMemory [lineA, lineC, lineB]

/-- A pool as `InitPlanetPool` returns it when the pool record and the arena header were
allocated and the `malloc` of the backing block inside `InitArena` returned `NULL`. -/
def nullPool : PlanetPool :=
  { pool_array := fun _ => 0, pool_size := 0, arena := ⟨6400, 0, NULL⟩ }

/-! ## Arena allocator: theorems -/

/-- An allocation never pushes `used` beyond `size`. -/
theorem ArenaAllocate_used_le_size (arena : Arena) (size : Nat)
    (h : arena.used ≤ arena.size) : (ArenaAllocate arena size).2.used ≤ arena.size := by
  unfold ArenaAllocate
  split
  · exact h
  · simp only; omega

/-- An allocation changes neither the capacity nor the base address. -/
theorem ArenaAllocate_frame (arena : Arena) (size : Nat) :
    (ArenaAllocate arena size).2.size = arena.size ∧
    (ArenaAllocate arena size).2.memory = arena.memory := by
  unfold ArenaAllocate
  split <;> exact ⟨rfl, rfl⟩

/-- Along any run of requests `used` stays within `size`. -/
theorem ArenaAllocateAll_used_le_size (sizes : List Nat) :
    ∀ arena : Arena, arena.used ≤ arena.size →
      (ArenaAllocateAll arena sizes).used ≤ (ArenaAllocateAll arena sizes).size ∧
      (ArenaAllocateAll arena sizes).size = arena.size := by
  induction sizes with
  | nil => intro arena h; exact ⟨h, rfl⟩
  | cons n rest ih =>
    intro arena h
    have hstep := ArenaAllocate_used_le_size arena n h
    have hframe := (ArenaAllocate_frame arena n).1
    have hrec := ih (ArenaAllocate arena n).2 (by rw [hframe]; exact hstep)
    exact ⟨hrec.1, by rw [← hframe]; exact hrec.2⟩

/-- When the sum `used + size` does not wrap around, `used` does not decrease, and a request
beyond the capacity is refused without effect. -/
theorem ArenaAllocate_no_wrap (arena : Arena) (size : Nat)
    (hno : arena.used + size < SIZE_MOD) :
    arena.used ≤ (ArenaAllocate arena size).2.used ∧
    (arena.used + size > arena.size → ArenaAllocate arena size = (NULL, arena)) := by
  have hmod : (arena.used + size) % SIZE_MOD = arena.used + size := Nat.mod_eq_of_lt hno
  unfold ArenaAllocate
  rw [hmod]
  constructor
  · split
    · exact Nat.le_refl _
    · exact Nat.le_add_right _ _
  · intro h
    rw [if_pos h]

/-- C3, at the failing run. A fresh arena of 100 bytes serves a request of 10 bytes, so
`used = 10`. The next request, of `2 ^ 64 - 5` bytes, exceeds the capacity, yet the sum
`used + size` wraps around to `5`: the request is granted (the pointer `memory + 10` is
returned, not `NULL`) and `used` drops from `10` to `5`. -/
theorem ArenaAllocate_wraparound_lowers_used :
    (ArenaAllocate (InitArena 100 4096) 10).2 = ⟨100, 10, 4096⟩ ∧
    18446744073709551611 < SIZE_MOD ∧
    (⟨100, 10, 4096⟩ : Arena).used + 18446744073709551611 > (⟨100, 10, 4096⟩ : Arena).size ∧
    ArenaAllocate ⟨100, 10, 4096⟩ 18446744073709551611 = (4106, ⟨100, 5, 4096⟩) ∧
    (ArenaAllocate ⟨100, 10, 4096⟩ 18446744073709551611).1 ≠ NULL ∧
    (ArenaAllocate ⟨100, 10, 4096⟩ 18446744073709551611).2.used <
      (⟨100, 10, 4096⟩ : Arena).used ∧
    (ArenaAllocateAll (InitArena 100 4096) [10, 18446744073709551611]).used = 5 := by
  decide

/-- C4. `ArenaAllocate` success postcondition: when `used + size` fits the capacity, the call
returns the address `memory + used` (the old `used`), sets `used` to the old `used + size` and
leaves `size` and `memory` as they were; a second successful request of `size2` bytes returns
the address right after the first region, so the two regions are adjacent and disjoint. -/
theorem ArenaAllocate_success (arena : Arena) (size : Nat)
    (hcap : arena.size < SIZE_MOD) (hfit : arena.used + size ≤ arena.size) :
    (ArenaAllocate arena size).1 = arena.memory + arena.used ∧
    (ArenaAllocate arena size).2.used = arena.used + size ∧
    (ArenaAllocate arena size).2.size = arena.size ∧
    (ArenaAllocate arena size).2.memory = arena.memory ∧
    ∀ size2 : Nat, arena.used + size + size2 ≤ arena.size →
      (ArenaAllocate (ArenaAllocate arena size).2 size2).1 =
        (ArenaAllocate arena size).1 + size ∧
      (ArenaAllocate (ArenaAllocate arena size).2 size2).2.used =
        arena.used + size + size2 := by
  have hmod : (arena.used + size) % SIZE_MOD = arena.used + size :=
    Nat.mod_eq_of_lt (by omega)
  have hcall : ArenaAllocate arena size =
      (arena.memory + arena.used, { arena with used := arena.used + size }) := by
    unfold ArenaAllocate
    rw [hmod, if_neg (by omega)]
  refine ⟨by rw [hcall], by rw [hcall], by rw [hcall], by rw [hcall], ?_⟩
  intro size2 hfit2
  have hmod2 : (arena.used + size + size2) % SIZE_MOD = arena.used + size + size2 :=
    Nat.mod_eq_of_lt (by omega)
  rw [hcall]
  unfold ArenaAllocate
  simp only [hmod2]
  rw [if_neg (by omega)]
  exact ⟨by simp only; omega, rfl⟩

/-- C4 at a concrete arena: 64 bytes, then 36 bytes, from an arena of 100 bytes at `4096`. -/
theorem ArenaAllocate_success_witness :
    (⟨100, 0, 4096⟩ : Arena).size < SIZE_MOD ∧
    (⟨100, 0, 4096⟩ : Arena).used + 64 ≤ (⟨100, 0, 4096⟩ : Arena).size ∧
    (ArenaAllocate ⟨100, 0, 4096⟩ 64).1 = 4096 ∧
    (ArenaAllocate ⟨100, 0, 4096⟩ 64).2.used = 64 ∧
    (ArenaAllocate (ArenaAllocate ⟨100, 0, 4096⟩ 64).2 36).1 = 4096 + 64 :=
  have h := ArenaAllocate_success ⟨100, 0, 4096⟩ 64 (by decide) (by decide)
  ⟨by decide, by decide, h.1, h.2.1, (h.2.2.2.2 36 (by decide)).1⟩

/-! ## Planet pool: lemmas -/

/-- A full pool refuses the planet and stays as it is. -/
theorem AddPlanet_full {F : Type} (pool : PlanetPool) (mem : Memory F) (planet : Planet F)
    (h : MAX_PLANETS ≤ pool.pool_size) : AddPlanet pool mem planet = (-1, pool, mem) := by
  unfold AddPlanet
  rw [dif_pos h]

/-- In a pool with the storage layout, the arena grants the next record at offset
`pool_size * sizeof(Planet)`. -/
theorem ArenaAllocate_of_inv {base : Nat} {pool : PlanetPool} (hinv : PoolInv base pool)
    (hlt : pool.pool_size < MAX_PLANETS) :
    ArenaAllocate pool.arena sizeofPlanet =
      (base + pool.pool_size * sizeofPlanet,
        { pool.arena with used := (pool.pool_size + 1) * sizeofPlanet }) := by
  obtain ⟨_, hsz, hmem, hused, _⟩ := hinv
  simp only [MAX_PLANETS, sizeofPlanet] at *
  have h1 : (pool.arena.used + 64) % SIZE_MOD = (pool.pool_size + 1) * 64 := by
    simp only [SIZE_MOD]; omega
  unfold ArenaAllocate
  rw [h1, if_neg (by omega), hmem, hused]

/-- What `AddPlanet` does to a pool with the storage layout that is not full. -/
theorem AddPlanet_of_inv {F : Type} {base : Nat} {pool : PlanetPool} (mem : Memory F)
    (planet : Planet F) (hbase : base ≠ NULL) (hinv : PoolInv base pool)
    (hlt : pool.pool_size < MAX_PLANETS) :
    AddPlanet pool mem planet =
      (1,
        { pool_array := Function.update pool.pool_array ⟨pool.pool_size, hlt⟩
            (base + pool.pool_size * sizeofPlanet)
          pool_size := pool.pool_size + 1
          arena := { pool.arena with used := (pool.pool_size + 1) * sizeofPlanet } },
        Function.update mem (base + pool.pool_size * sizeofPlanet) (storedRecord planet)) := by
  have h2 : (pool.pool_size + 1) % SIZE_MOD = pool.pool_size + 1 := by
    simp only [MAX_PLANETS, SIZE_MOD] at *; omega
  have h3 : ¬ (base + pool.pool_size * sizeofPlanet = NULL) := by
    simp only [NULL] at *; omega
  unfold AddPlanet
  rw [dif_neg (by omega)]
  simp only [ArenaAllocate_of_inv hinv hlt]
  rw [if_neg h3]
  simp only [h2, storedRecord]

/-- One call keeps `pool_size` within `MAX_PLANETS`, whatever the arena holds. -/
theorem AddPlanet_pool_size_le {F : Type} (pool : PlanetPool) (mem : Memory F)
    (planet : Planet F) (h : pool.pool_size ≤ MAX_PLANETS) :
    (AddPlanet pool mem planet).2.1.pool_size ≤ MAX_PLANETS := by
  unfold AddPlanet
  split
  · exact h
  · rename_i hlt
    have hlt2 : pool.pool_size < 100 := Nat.lt_of_not_le hlt
    simp only
    split
    · exact h
    · simp only [MAX_PLANETS, SIZE_MOD]; omega

/-- Any run of calls keeps `pool_size` within `MAX_PLANETS`. -/
theorem AddPlanets_pool_size_le {F : Type} (ps : List (Planet F)) :
    ∀ (pool : PlanetPool) (mem : Memory F), pool.pool_size ≤ MAX_PLANETS →
      (AddPlanets pool mem ps).1.pool_size ≤ MAX_PLANETS := by
  induction ps with
  | nil => intro pool mem h; exact h
  | cons p rest ih =>
    intro pool mem h
    exact ih _ _ (AddPlanet_pool_size_le pool mem p h)

/-- A pool returned by `InitPlanetPool` is empty and has the storage layout. -/
theorem PoolInv_init {mallocPool mallocArena mallocMemory : Nat} {junk : Fin MAX_PLANETS → Nat}
    {pool : PlanetPool} (h : InitPlanetPool mallocPool mallocArena mallocMemory junk = some pool) :
    PoolInv mallocMemory pool ∧ pool.pool_size = 0 := by
  unfold InitPlanetPool at h
  split at h
  · exact absurd h (by simp)
  · split at h
    · exact absurd h (by simp)
    · simp only [Option.some.injEq] at h
      subst h
      refine ⟨⟨Nat.zero_le _, ?_, rfl, ?_, ?_⟩, rfl⟩
      · simp only [InitArena]; decide
      · simp [InitArena]
      · intro k hk; exact absurd hk (Nat.not_lt_zero _)

/-- `AddPlanet` keeps the storage layout. -/
theorem PoolInv_AddPlanet {F : Type} {base : Nat} {pool : PlanetPool} (mem : Memory F)
    (planet : Planet F) (hbase : base ≠ NULL) (hinv : PoolInv base pool) :
    PoolInv base (AddPlanet pool mem planet).2.1 := by
  by_cases hlt : pool.pool_size < MAX_PLANETS
  · rw [AddPlanet_of_inv mem planet hbase hinv hlt]
    obtain ⟨_, hsz, hmem, _, hslots⟩ := hinv
    refine ⟨hlt, hsz, hmem, rfl, ?_⟩
    intro k hk
    by_cases hkn : k = ⟨pool.pool_size, hlt⟩
    · subst hkn; simp
    · have hne : k.val ≠ pool.pool_size := fun h => hkn (Fin.ext h)
      simp only [Function.update_noteq hkn]
      exact hslots k (by simp only at hk; omega)
  · rw [AddPlanet_full pool mem planet (Nat.le_of_not_lt hlt)]
    exact hinv

/-- `AddPlanet` on a pool holding `qs`, with room left, gives a pool holding `qs ++ [planet]`. -/
theorem PoolHolds_AddPlanet {F : Type} {base : Nat} {pool : PlanetPool} {mem : Memory F}
    {qs : List (Planet F)} (planet : Planet F) (hbase : base ≠ NULL)
    (h : PoolHolds base pool mem qs) (hlt : qs.length < MAX_PLANETS) :
    PoolHolds base (AddPlanet pool mem planet).2.1 (AddPlanet pool mem planet).2.2
      (qs ++ [planet]) := by
  obtain ⟨hinv, hlen, hmem⟩ := h
  have hlt2 : pool.pool_size < MAX_PLANETS := by omega
  refine ⟨PoolInv_AddPlanet mem planet hbase hinv, ?_, ?_⟩
  · rw [AddPlanet_of_inv mem planet hbase hinv hlt2]; simp [hlen]
  · rw [AddPlanet_of_inv mem planet hbase hinv hlt2]
    intro i q hq
    simp only
    by_cases hi : i < qs.length
    · rw [List.getElem?_append_left hi] at hq
      rw [Function.update_noteq (by simp only [sizeofPlanet]; omega)]
      exact hmem i q hq
    · have hi2 : i = qs.length := by
        by_contra hne
        have : qs.length + 1 ≤ i := by omega
        rw [List.getElem?_eq_none (by simp; omega)] at hq
        exact absurd hq (by simp)
      subst hi2
      simp at hq
      subst hq
      rw [hlen]; simp

/-- A run of `AddPlanet` calls that fits the pool stores its planets after those already held. -/
theorem PoolHolds_AddPlanets {F : Type} {base : Nat} (hbase : base ≠ NULL)
    (ps : List (Planet F)) :
    ∀ (pool : PlanetPool) (mem : Memory F) (qs : List (Planet F)),
      PoolHolds base pool mem qs → qs.length + ps.length ≤ MAX_PLANETS →
      PoolHolds base (AddPlanets pool mem ps).1 (AddPlanets pool mem ps).2 (qs ++ ps) := by
  induction ps with
  | nil => intro pool mem qs h _; simpa [AddPlanets] using h
  | cons p rest ih =>
    intro pool mem qs h hlen
    simp only [List.length_cons] at hlen
    have h1 := PoolHolds_AddPlanet p hbase h (by omega)
    have h2 := ih _ _ (qs ++ [p]) h1 (by simp; omega)
    simpa [AddPlanets] using h2

/-- A run of `AddPlanet` calls keeps the storage layout. -/
theorem PoolInv_AddPlanets {F : Type} {base : Nat} (hbase : base ≠ NULL)
    (ps : List (Planet F)) :
    ∀ (pool : PlanetPool) (mem : Memory F), PoolInv base pool →
      PoolInv base (AddPlanets pool mem ps).1 := by
  induction ps with
  | nil => intro pool mem h; exact h
  | cons p rest ih =>
    intro pool mem h
    exact ih _ _ (PoolInv_AddPlanet mem p hbase h)

/-- A fresh pool holds no planet, whatever the memory contains. -/
theorem PoolHolds_init {F : Type} {mallocPool mallocArena mallocMemory : Nat}
    {junk : Fin MAX_PLANETS → Nat} {pool : PlanetPool} (mem : Memory F)
    (h : InitPlanetPool mallocPool mallocArena mallocMemory junk = some pool) :
    PoolHolds mallocMemory pool mem [] :=
  ⟨(PoolInv_init h).1, (PoolInv_init h).2, fun i q hq => absurd hq (by simp)⟩

/-! ## Planet pool: theorems -/

/-- Capacity: after any run of `AddPlanet` calls on a pool returned by `InitPlanetPool`,
`pool_size` is at most `MAX_PLANETS`; and where the backing block was obtained, after 100
insertions `pool_size` is 100 and the 101st insertion returns `-1` and leaves `pool_size` at
100. -/
theorem capacity_invariant {F : Type} (mallocPool mallocArena mallocMemory : Nat)
    (junk : Fin MAX_PLANETS → Nat) (pool0 : PlanetPool) (mem0 : Memory F)
    (hinit : InitPlanetPool mallocPool mallocArena mallocMemory junk = some pool0) :
    (∀ ps : List (Planet F), (AddPlanets pool0 mem0 ps).1.pool_size ≤ MAX_PLANETS) ∧
    (mallocMemory ≠ NULL → ∀ (ps : List (Planet F)) (p : Planet F),
      ps.length = MAX_PLANETS →
        (AddPlanets pool0 mem0 ps).1.pool_size = MAX_PLANETS ∧
        (AddPlanet (AddPlanets pool0 mem0 ps).1 (AddPlanets pool0 mem0 ps).2 p).1 = -1 ∧
        (AddPlanet (AddPlanets pool0 mem0 ps).1 (AddPlanets pool0 mem0 ps).2 p).2.1.pool_size
          = MAX_PLANETS) := by
  have h0 := PoolInv_init hinit
  constructor
  · intro ps
    exact AddPlanets_pool_size_le ps pool0 mem0 (by rw [h0.2]; exact Nat.zero_le _)
  · intro hmem ps p hlen
    have hholds := PoolHolds_AddPlanets hmem ps pool0 mem0 [] (PoolHolds_init mem0 hinit)
      (by simp [hlen])
    have hsize : (AddPlanets pool0 mem0 ps).1.pool_size = MAX_PLANETS := by
      rw [hholds.2.1]; simpa using hlen
    rw [AddPlanet_full _ _ p (by rw [hsize])]
    exact ⟨hsize, rfl, hsize⟩

/-- Capacity at a concrete run: 100 copies of `earth` into the fresh pool, then `sun`. -/
theorem capacity_invariant_witness :
    InitPlanetPool 1 2 4096 (fun _ => 0) = some freshPool ∧
    (AddPlanets freshPool blankMemory (List.replicate 100 earth)).1.pool_size ≤ MAX_PLANETS ∧
    (AddPlanet (AddPlanets freshPool blankMemory (List.replicate 100 earth)).1
      (AddPlanets freshPool blankMemory (List.replicate 100 earth)).2 sun).1 = -1 :=
  have h := capacity_invariant 1 2 4096 (fun _ => 0) freshPool blankMemory rfl
  ⟨rfl, h.1 _, (h.2 (by decide) (List.replicate 100 earth) sun (by simp)).2.1⟩

/-- Failure of `AddPlanet`, backing block obtained. In a pool reached from `InitPlanetPool`
(its third `malloc` not `NULL`) by `AddPlanet` calls,
`AddPlanet` returns `-1` exactly when `pool_size = MAX_PLANETS`; a failing call leaves the pool
(size, slots, arena) and the memory as they were; and while `pool_size < MAX_PLANETS` the
arena does not return `NULL`. -/
theorem AddPlanet_fails_iff_full {F : Type} (mallocPool mallocArena mallocMemory : Nat)
    (junk : Fin MAX_PLANETS → Nat) (pool0 : PlanetPool) (mem0 : Memory F)
    (hinit : InitPlanetPool mallocPool mallocArena mallocMemory junk = some pool0)
    (hmem : mallocMemory ≠ NULL) (ps : List (Planet F)) (p : Planet F) :
    ((AddPlanet (AddPlanets pool0 mem0 ps).1 (AddPlanets pool0 mem0 ps).2 p).1 = -1 ↔
      (AddPlanets pool0 mem0 ps).1.pool_size = MAX_PLANETS) ∧
    ((AddPlanet (AddPlanets pool0 mem0 ps).1 (AddPlanets pool0 mem0 ps).2 p).1 = -1 →
      (AddPlanet (AddPlanets pool0 mem0 ps).1 (AddPlanets pool0 mem0 ps).2 p).2 =
        AddPlanets pool0 mem0 ps) ∧
    ((AddPlanets pool0 mem0 ps).1.pool_size < MAX_PLANETS →
      (ArenaAllocate (AddPlanets pool0 mem0 ps).1.arena sizeofPlanet).1 ≠ NULL) := by
  have hinv := PoolInv_AddPlanets hmem ps pool0 mem0 (PoolInv_init hinit).1
  by_cases hlt : (AddPlanets pool0 mem0 ps).1.pool_size < MAX_PLANETS
  · have hcall := AddPlanet_of_inv (AddPlanets pool0 mem0 ps).2 p hmem hinv hlt
    have halloc := ArenaAllocate_of_inv hinv hlt
    refine ⟨?_, ?_, ?_⟩
    · rw [hcall]
      constructor
      · intro h; exact absurd (show (1 : Int) = -1 from h) (by decide)
      · intro h; omega
    · rw [hcall]
      intro h; exact absurd (show (1 : Int) = -1 from h) (by decide)
    · intro _
      rw [halloc]
      simp only [NULL] at *
      omega
  · have hfull : (AddPlanets pool0 mem0 ps).1.pool_size = MAX_PLANETS :=
      Nat.le_antisymm hinv.1 (Nat.le_of_not_lt hlt)
    rw [AddPlanet_full _ _ p (by rw [hfull])]
    exact ⟨⟨fun _ => hfull, fun _ => rfl⟩, fun _ => rfl, fun h => absurd h hlt⟩

/-- Failure of `AddPlanet` at a concrete pool: the fresh pool after `earth`, asked to take
`sun`. -/
theorem AddPlanet_fails_iff_full_witness :
    InitPlanetPool 1 2 4096 (fun _ => 0) = some freshPool ∧ (4096 : Nat) ≠ NULL ∧
    ((AddPlanet (AddPlanets freshPool blankMemory [earth]).1
        (AddPlanets freshPool blankMemory [earth]).2 sun).1 = -1 ↔
      (AddPlanets freshPool blankMemory [earth]).1.pool_size = MAX_PLANETS) :=
  ⟨rfl, by decide,
    (AddPlanet_fails_iff_full 1 2 4096 (fun _ => 0) freshPool blankMemory rfl (by decide)
      [earth] sun).1⟩

/-- Success of `AddPlanet`, backing block obtained. In a pool reached from `InitPlanetPool`
(its third `malloc` not `NULL`) by `AddPlanet` calls, with `pool_size = n < MAX_PLANETS`: after the call
`pool_size = n + 1`; slot `n` points at a record whose mass, diameter, pos, velo and accel
are those of `p`, at an address no earlier slot points at; every slot `k < n` holds the same
pointer as before and its record is unchanged. Hence after inserting `ps` (at most
`MAX_PLANETS` planets) into the fresh pool, `pool_size = ps.length` and slot `k` holds the
copy of the `k`-th planet of `ps`: the slots list the planets in insertion order. -/
theorem AddPlanet_success {F : Type} (mallocPool mallocArena mallocMemory : Nat)
    (junk : Fin MAX_PLANETS → Nat) (pool0 : PlanetPool) (mem0 : Memory F)
    (hinit : InitPlanetPool mallocPool mallocArena mallocMemory junk = some pool0)
    (hmem : mallocMemory ≠ NULL) :
    (∀ (ps : List (Planet F)) (pool : PlanetPool) (mem : Memory F),
      AddPlanets pool0 mem0 ps = (pool, mem) →
      ∀ (p : Planet F) (hlt : pool.pool_size < MAX_PLANETS) (ret : Int) (pool1 : PlanetPool)
        (mem1 : Memory F), AddPlanet pool mem p = (ret, pool1, mem1) →
        pool1.pool_size = pool.pool_size + 1 ∧
        (mem1 (pool1.pool_array ⟨pool.pool_size, hlt⟩)).mass = p.mass ∧
        (mem1 (pool1.pool_array ⟨pool.pool_size, hlt⟩)).diameter = p.diameter ∧
        (mem1 (pool1.pool_array ⟨pool.pool_size, hlt⟩)).pos = p.pos ∧
        (mem1 (pool1.pool_array ⟨pool.pool_size, hlt⟩)).velo = p.velo ∧
        (mem1 (pool1.pool_array ⟨pool.pool_size, hlt⟩)).accel = p.accel ∧
        ∀ k : Fin MAX_PLANETS, k.val < pool.pool_size →
          pool1.pool_array k = pool.pool_array k ∧
          mem1 (pool.pool_array k) = mem (pool.pool_array k) ∧
          pool.pool_array k ≠ pool1.pool_array ⟨pool.pool_size, hlt⟩) ∧
    (∀ ps : List (Planet F), ps.length ≤ MAX_PLANETS →
      (AddPlanets pool0 mem0 ps).1.pool_size = ps.length ∧
      ∀ (k : Fin MAX_PLANETS) (hk : k.val < ps.length),
        (AddPlanets pool0 mem0 ps).2 ((AddPlanets pool0 mem0 ps).1.pool_array k) =
          storedRecord (ps.get ⟨k.val, hk⟩)) := by
  constructor
  · intro ps pool mem hrun p hlt ret pool1 mem1 hcall
    have hinv : PoolInv mallocMemory pool := by
      have h := PoolInv_AddPlanets hmem ps pool0 mem0 (PoolInv_init hinit).1
      rw [hrun] at h; exact h
    rw [AddPlanet_of_inv mem p hmem hinv hlt] at hcall
    simp only [Prod.mk.injEq] at hcall
    obtain ⟨_, hpool, hmem1⟩ := hcall
    subst hpool hmem1
    refine ⟨rfl, ?_⟩
    dsimp only
    rw [Function.update_same, Function.update_same]
    refine ⟨rfl, rfl, rfl, rfl, rfl, ?_⟩
    intro k hk
    have hkn : k ≠ ⟨pool.pool_size, hlt⟩ := fun h => by
      have := congrArg Fin.val h
      simp only at this; omega
    have hslot := hinv.2.2.2.2 k hk
    have hne : mallocMemory + k.val * sizeofPlanet ≠
        mallocMemory + pool.pool_size * sizeofPlanet := by
      simp only [sizeofPlanet]; omega
    refine ⟨Function.update_noteq hkn _ _, ?_, ?_⟩
    · rw [hslot, Function.update_noteq hne]
    · rw [hslot]; exact hne
  · intro ps hlen
    have hholds := PoolHolds_AddPlanets hmem ps pool0 mem0 [] (PoolHolds_init mem0 hinit)
      (by simpa using hlen)
    obtain ⟨hinv, hsize, hrec⟩ := hholds
    simp only [List.nil_append] at hsize hrec
    refine ⟨hsize, ?_⟩
    intro k hk
    rw [hinv.2.2.2.2 k (by rw [hsize]; exact hk)]
    exact hrec k.val _ (by rw [List.getElem?_eq_getElem hk]; rfl)

/-- Success of `AddPlanet` at a concrete run: `earth`, `sun` and `mars` into the fresh pool,
as `main` does. -/
theorem AddPlanet_success_witness :
    InitPlanetPool 1 2 4096 (fun _ => 0) = some freshPool ∧ (4096 : Nat) ≠ NULL ∧
    (AddPlanets freshPool blankMemory [earth, sun, mars]).1.pool_size = 3 ∧
    (AddPlanets freshPool blankMemory [earth, sun, mars]).2
        ((AddPlanets freshPool blankMemory [earth, sun, mars]).1.pool_array 1) =
      storedRecord sun :=
  have h := (AddPlanet_success 1 2 4096 (fun _ => 0) freshPool blankMemory rfl (by decide)).2
    [earth, sun, mars] (by decide)
  ⟨rfl, by decide, h.1, h.2 1 (by decide)⟩

/-- C6, refuted at a concrete input: the second insertion into the fresh pool (`sun` after
`earth`) succeeds and leaves two occupied slots, yet `AddPlanet` returns `1`, not `2`. -/
theorem AddPlanet_second_insertion_returns_one :
    (AddPlanet (AddPlanets freshPool blankMemory [earth]).1
      (AddPlanets freshPool blankMemory [earth]).2 sun).1 = 1 ∧
    (AddPlanet (AddPlanets freshPool blankMemory [earth]).1
      (AddPlanets freshPool blankMemory [earth]).2 sun).2.1.pool_size = 2 ∧
    (AddPlanet (AddPlanets freshPool blankMemory [earth]).1
      (AddPlanets freshPool blankMemory [earth]).2 sun).1 ≠
      ((AddPlanet (AddPlanets freshPool blankMemory [earth]).1
        (AddPlanets freshPool blankMemory [earth]).2 sun).2.1.pool_size : Int) := by
  decide

/-- C6, amended. Every insertion into a pool reached from `InitPlanetPool` (backing block
obtained) by fewer than `MAX_PLANETS` calls succeeds and returns the constant `1`, while the
number of occupied slots becomes the number of insertions made. -/
theorem AddPlanet_returns_one {F : Type} (mallocPool mallocArena mallocMemory : Nat)
    (junk : Fin MAX_PLANETS → Nat) (pool0 : PlanetPool) (mem0 : Memory F)
    (hinit : InitPlanetPool mallocPool mallocArena mallocMemory junk = some pool0)
    (hmem : mallocMemory ≠ NULL) (ps : List (Planet F)) (p : Planet F)
    (hlen : ps.length < MAX_PLANETS) :
    (AddPlanet (AddPlanets pool0 mem0 ps).1 (AddPlanets pool0 mem0 ps).2 p).1 = 1 ∧
    (AddPlanet (AddPlanets pool0 mem0 ps).1 (AddPlanets pool0 mem0 ps).2 p).2.1.pool_size =
      ps.length + 1 := by
  have hholds := PoolHolds_AddPlanets hmem ps pool0 mem0 [] (PoolHolds_init mem0 hinit)
    (by simp only [List.length_nil]; omega)
  obtain ⟨hinv, hsize, _⟩ := hholds
  simp only [List.nil_append] at hsize
  rw [AddPlanet_of_inv _ p hmem hinv (by rw [hsize]; exact hlen)]
  exact ⟨rfl, by simp only; rw [hsize]⟩

/-- C6 amended, at a concrete run: the third insertion of `main` returns `1`. -/
theorem AddPlanet_returns_one_witness :
    InitPlanetPool 1 2 4096 (fun _ => 0) = some freshPool ∧ (4096 : Nat) ≠ NULL ∧
    [earth, sun].length < MAX_PLANETS ∧
    (AddPlanet (AddPlanets freshPool blankMemory [earth, sun]).1
      (AddPlanets freshPool blankMemory [earth, sun]).2 mars).1 = 1 :=
  ⟨rfl, by decide, by decide,
    (AddPlanet_returns_one 1 2 4096 (fun _ => 0) freshPool blankMemory rfl (by decide)
      [earth, sun] mars (by decide)).1⟩

/-! ## Float arithmetic: lemmas -/

/-- Sum of two finite floats. -/
theorem CFloat.fin_add_fin {F : Type} [Field F] (a b : F) :
    CFloat.fin a + CFloat.fin b = CFloat.fin (a + b) := rfl

/-- Difference of two finite floats. -/
theorem CFloat.fin_sub_fin {F : Type} [Field F] (a b : F) :
    CFloat.fin a - CFloat.fin b = CFloat.fin (a - b) := rfl

/-- Product of two finite floats. -/
theorem CFloat.fin_mul_fin {F : Type} [Field F] (a b : F) :
    CFloat.fin a * CFloat.fin b = CFloat.fin (a * b) := rfl

/-- Negation of a finite float. -/
theorem CFloat.neg_fin {F : Type} [Field F] (a : F) : -CFloat.fin a = CFloat.fin (-a) := rfl

/-- Quotient of two finite floats with a non-zero divisor. -/
theorem CFloat.fin_div_fin {F : Type} [Field F] [DecidableEq F] (a : F) {b : F} (hb : b ≠ 0) :
    CFloat.fin a / CFloat.fin b = CFloat.fin (a / b) := by
  show CFloat.div (CFloat.fin a) (CFloat.fin b) = _
  simp [CFloat.div, hb]

/-- Division of a finite float by zero is not finite. -/
theorem CFloat.fin_div_zero {F : Type} [Field F] [DecidableEq F] (a : F) :
    CFloat.fin a / CFloat.fin (0 : F) = CFloat.nan := by
  show CFloat.div (CFloat.fin a) (CFloat.fin 0) = _
  simp [CFloat.div]

/-- Adding a non-finite float gives a non-finite float. -/
theorem CFloat.add_nan {F : Type} [Field F] (a : CFloat F) : a + CFloat.nan = CFloat.nan := by
  cases a <;> rfl

/-- Multiplying by a non-finite float gives a non-finite float. -/
theorem CFloat.mul_nan {F : Type} [Field F] (a : CFloat F) : a * CFloat.nan = CFloat.nan := by
  cases a <;> rfl

/-- Dividing a non-finite float gives a non-finite float. -/
theorem CFloat.nan_div {F : Type} [Field F] [DecidableEq F] (a : CFloat F) :
    CFloat.nan / a = CFloat.nan := by
  cases a <;> rfl

/-! ## Pairwise update: lemmas -/

/-- The Euclidean length of the difference of two distinct points is not zero. -/
theorem magnitude_ne_zero {F : Type} [LinearOrderedField F] {x1 y1 x2 y2 d : F}
    (hpos : (x1, y1) ≠ (x2, y2))
    (hd : d * d = (x2 - x1) * (x2 - x1) + (y2 - y1) * (y2 - y1)) : d ≠ 0 := by
  intro h0
  rw [h0, zero_mul] at hd
  have hx : (x2 - x1) * (x2 - x1) = 0 := by
    nlinarith [mul_self_nonneg (x2 - x1), mul_self_nonneg (y2 - y1)]
  have hy : (y2 - y1) * (y2 - y1) = 0 := by
    nlinarith [mul_self_nonneg (x2 - x1), mul_self_nonneg (y2 - y1)]
  have hx0 : x2 - x1 = 0 := mul_self_eq_zero.mp hx
  have hy0 : y2 - y1 = 0 := mul_self_eq_zero.mp hy
  apply hpos
  rw [Prod.mk.injEq]
  exact ⟨(sub_eq_zero.mp hx0).symm, (sub_eq_zero.mp hy0).symm⟩

/-- The records after `UpdatePairwise` on two finite planets at non-zero finite distance `d`,
term by term as the source computes them. -/
theorem UpdatePairwise_finite {F : Type} [Field F] [DecidableEq F]
    (distanceMagnitude : Vector2 F → CFloat F) (planet1 planet2 : Planet F)
    (m1 m2 x1 y1 x2 y2 vx1 vy1 vx2 vy2 d : F)
    (hm1 : planet1.mass = .fin m1) (hm2 : planet2.mass = .fin m2)
    (hp1 : planet1.pos = ⟨.fin x1, .fin y1⟩) (hp2 : planet2.pos = ⟨.fin x2, .fin y2⟩)
    (hv1 : planet1.velo = ⟨.fin vx1, .fin vy1⟩) (hv2 : planet2.velo = ⟨.fin vx2, .fin vy2⟩)
    (hmag : distanceMagnitude ⟨.fin (x2 - x1), .fin (y2 - y1)⟩ = .fin d)
    (hm1z : m1 ≠ 0) (hm2z : m2 ≠ 0) (hdz : d ≠ 0) :
    (UpdatePairwise distanceMagnitude planet1 planet2).1.velo =
      ⟨.fin (vx1 + 10 * m1 * m2 / (d * d) * ((x2 - x1) / d) / m1),
       .fin (vy1 + 10 * m1 * m2 / (d * d) * ((y2 - y1) / d) / m1)⟩ ∧
    (UpdatePairwise distanceMagnitude planet1 planet2).2.velo =
      ⟨.fin (vx2 + -(10 * m1 * m2 / (d * d)) * ((x2 - x1) / d) / m2),
       .fin (vy2 + -(10 * m1 * m2 / (d * d)) * ((y2 - y1) / d) / m2)⟩ := by
  have hdd : d * d ≠ 0 := mul_ne_zero hdz hdz
  simp only [UpdatePairwise, GRAVITY, hm1, hm2, hp1, hp2, hv1, hv2, CFloat.fin_sub_fin, hmag,
    CFloat.fin_mul_fin, CFloat.fin_div_fin _ hdd, CFloat.fin_div_fin _ hdz,
    CFloat.fin_div_fin _ hm1z, CFloat.fin_div_fin _ hm2z, CFloat.neg_fin, CFloat.fin_add_fin,
    and_self]

/-- On two different addresses the statement-by-statement update of memory is the update of
the two records. -/
theorem UpdatePairwiseAt_eq {F : Type} [Field F] [DecidableEq F]
    (distanceMagnitude : Vector2 F → CFloat F) (mem : Memory F) {a b : Nat} (hab : a ≠ b) :
    UpdatePairwiseAt distanceMagnitude mem a b =
      Function.update
        (Function.update mem a (UpdatePairwise distanceMagnitude (mem a) (mem b)).1) b
        (UpdatePairwise distanceMagnitude (mem a) (mem b)).2 := by
  funext addr
  by_cases h1 : addr = a
  · subst h1
    simp [UpdatePairwiseAt, UpdatePairwise, Function.update, hab, Ne.symm hab]
  · by_cases h2 : addr = b
    · subst h2
      simp [UpdatePairwiseAt, UpdatePairwise, Function.update, hab, Ne.symm hab]
    · simp [UpdatePairwiseAt, UpdatePairwise, Function.update, h1, h2]

/-- A step over a pool of two planets is one pair update followed by the collision hook. -/
theorem UpdateTrajectories_two {F : Type} [Field F] [DecidableEq F] (NDEBUG : Bool)
    (distanceMagnitude : Vector2 F → CFloat F) (pool : PlanetPool)
    (hsize : pool.pool_size ≤ MAX_PLANETS) (mem : Memory F) (h2 : pool.pool_size = 2) :
    UpdateTrajectories NDEBUG distanceMagnitude pool hsize mem =
      if NDEBUG then
        some (UpdatePairwiseAt distanceMagnitude mem (pool.pool_array ⟨0, by decide⟩)
          (pool.pool_array ⟨1, by decide⟩))
      else none := by
  unfold UpdateTrajectories
  rw [UpdateTrajectories.outer, dif_pos (by omega)]
  rw [UpdateTrajectories.inner, dif_pos (by omega)]
  cases NDEBUG
  · simp [CheckCollision]
  · simp only [CheckCollision, if_true]
    rw [UpdateTrajectories.inner, dif_neg (by omega)]
    simp only
    rw [UpdateTrajectories.outer, dif_pos (by omega)]
    rw [UpdateTrajectories.inner, dif_neg (by omega)]
    simp only
    rw [UpdateTrajectories.outer, dif_neg (by omega)]

/-- Two planets at one finite position, the magnitude of the zero vector being zero: the pair
update divides zero by zero, and both velocities and both positions come out non-finite. -/
theorem UpdatePairwise_coincident {F : Type} [Field F] [DecidableEq F]
    (distanceMagnitude : Vector2 F → CFloat F) (planet1 planet2 : Planet F) {x y : F}
    (hp1 : planet1.pos = ⟨.fin x, .fin y⟩) (hp2 : planet2.pos = ⟨.fin x, .fin y⟩)
    (hmag : distanceMagnitude ⟨.fin 0, .fin 0⟩ = .fin 0) :
    (UpdatePairwise distanceMagnitude planet1 planet2).1.velo = ⟨.nan, .nan⟩ ∧
    (UpdatePairwise distanceMagnitude planet1 planet2).1.pos = ⟨.nan, .nan⟩ ∧
    (UpdatePairwise distanceMagnitude planet1 planet2).2.velo = ⟨.nan, .nan⟩ ∧
    (UpdatePairwise distanceMagnitude planet1 planet2).2.pos = ⟨.nan, .nan⟩ := by
  simp only [UpdatePairwise, hp1, hp2, CFloat.fin_sub_fin, sub_self, hmag, CFloat.fin_div_zero,
    CFloat.mul_nan, CFloat.nan_div, CFloat.add_nan, and_self]

/-- The spec's magnitude of a rational vector whose squared length is the square of `d ≥ 0`. -/
theorem euclideanMagnitude_of_sq (x y d : ℚ) (hd : 0 ≤ d) (h : x * x + y * y = d * d) :
    euclideanMagnitude ⟨.fin x, .fin y⟩ = .fin d := by
  simp only [euclideanMagnitude, h, Rat.sqrt_eq, abs_of_nonneg hd]

/-! ## Pairwise update: theorems -/

/-- C7. Momentum pairing: for two planets with non-zero masses `m1`, `m2` at distinct positions,
`distanceMagnitude` being the Euclidean length `d` of `pos2 - pos1`, the velocities after
`UpdatePairwise` are finite and their changes satisfy `m1 * dv1 + m2 * dv2 = 0` in both
components. -/
theorem momentum_pairing {F : Type} [LinearOrderedField F]
    (distanceMagnitude : Vector2 F → CFloat F) (planet1 planet2 : Planet F)
    (m1 m2 x1 y1 x2 y2 vx1 vy1 vx2 vy2 d : F)
    (hm1 : planet1.mass = .fin m1) (hm2 : planet2.mass = .fin m2)
    (hp1 : planet1.pos = ⟨.fin x1, .fin y1⟩) (hp2 : planet2.pos = ⟨.fin x2, .fin y2⟩)
    (hv1 : planet1.velo = ⟨.fin vx1, .fin vy1⟩) (hv2 : planet2.velo = ⟨.fin vx2, .fin vy2⟩)
    (hm1z : m1 ≠ 0) (hm2z : m2 ≠ 0) (hpos : (x1, y1) ≠ (x2, y2))
    (hmag : distanceMagnitude ⟨.fin (x2 - x1), .fin (y2 - y1)⟩ = .fin d)
    (hd0 : 0 ≤ d) (hd : d * d = (x2 - x1) * (x2 - x1) + (y2 - y1) * (y2 - y1)) :
    ∃ wx1 wy1 wx2 wy2 : F,
      (UpdatePairwise distanceMagnitude planet1 planet2).1.velo = ⟨.fin wx1, .fin wy1⟩ ∧
      (UpdatePairwise distanceMagnitude planet1 planet2).2.velo = ⟨.fin wx2, .fin wy2⟩ ∧
      m1 * (wx1 - vx1) + m2 * (wx2 - vx2) = 0 ∧
      m1 * (wy1 - vy1) + m2 * (wy2 - vy2) = 0 := by
  have hdz : d ≠ 0 := magnitude_ne_zero hpos hd
  have h := UpdatePairwise_finite distanceMagnitude planet1 planet2 m1 m2 x1 y1 x2 y2 vx1 vy1
    vx2 vy2 d hm1 hm2 hp1 hp2 hv1 hv2 hmag hm1z hm2z hdz
  refine ⟨_, _, _, _, h.1, h.2, ?_, ?_⟩
  · field_simp; ring
  · field_simp; ring

/-- C7 at `bodyA` (mass 2 at the origin) and `bodyB` (mass 5 at `(3, 4)`), distance 5. -/
theorem momentum_pairing_witness :
    ((0 : ℚ), (0 : ℚ)) ≠ (3, 4) ∧
    euclideanMagnitude ⟨.fin (3 - 0), .fin (4 - 0)⟩ = .fin 5 ∧
    ∃ wx1 wy1 wx2 wy2 : ℚ,
      (UpdatePairwise euclideanMagnitude bodyA bodyB).1.velo = ⟨.fin wx1, .fin wy1⟩ ∧
      (UpdatePairwise euclideanMagnitude bodyA bodyB).2.velo = ⟨.fin wx2, .fin wy2⟩ ∧
      2 * (wx1 - 1) + 5 * (wx2 - 0) = 0 ∧
      2 * (wy1 - 0) + 5 * (wy2 - (-1)) = 0 :=
  have hmag : euclideanMagnitude ⟨.fin (3 - 0), .fin (4 - 0)⟩ = .fin 5 :=
    euclideanMagnitude_of_sq _ _ 5 (by norm_num) (by norm_num)
  ⟨by decide, hmag,
    momentum_pairing euclideanMagnitude bodyA bodyB 2 5 0 0 3 4 1 0 0 (-1) 5 rfl rfl rfl rfl rfl
      rfl (by norm_num) (by norm_num) (by decide) hmag (by norm_num) (by norm_num)⟩

/-- C8. Force law: for two planets with non-zero masses at distinct positions at Euclidean
distance `d`, `UpdatePairwise` adds `(GRAVITY * m1 * m2 / d²) * u / m1` to the velocity of
planet 1 and subtracts `(GRAVITY * m1 * m2 / d²) * u / m2` from that of planet 2, where
`u = (pos2 - pos1) / d` and `GRAVITY = 10`; that is `dv1 = 10 * m2 * (pos2 - pos1) / d³` and
`dv2 = -10 * m1 * (pos2 - pos1) / d³`, without a time-step factor. -/
theorem force_law {F : Type} [LinearOrderedField F]
    (distanceMagnitude : Vector2 F → CFloat F) (planet1 planet2 : Planet F)
    (m1 m2 x1 y1 x2 y2 vx1 vy1 vx2 vy2 d : F)
    (hm1 : planet1.mass = .fin m1) (hm2 : planet2.mass = .fin m2)
    (hp1 : planet1.pos = ⟨.fin x1, .fin y1⟩) (hp2 : planet2.pos = ⟨.fin x2, .fin y2⟩)
    (hv1 : planet1.velo = ⟨.fin vx1, .fin vy1⟩) (hv2 : planet2.velo = ⟨.fin vx2, .fin vy2⟩)
    (hm1z : m1 ≠ 0) (hm2z : m2 ≠ 0) (hpos : (x1, y1) ≠ (x2, y2))
    (hmag : distanceMagnitude ⟨.fin (x2 - x1), .fin (y2 - y1)⟩ = .fin d)
    (hd0 : 0 ≤ d) (hd : d * d = (x2 - x1) * (x2 - x1) + (y2 - y1) * (y2 - y1)) :
    (GRAVITY : CFloat F) = .fin 10 ∧
    (UpdatePairwise distanceMagnitude planet1 planet2).1.velo =
      ⟨.fin (vx1 + (10 * m1 * m2 / d ^ 2) * ((x2 - x1) / d) / m1),
       .fin (vy1 + (10 * m1 * m2 / d ^ 2) * ((y2 - y1) / d) / m1)⟩ ∧
    (UpdatePairwise distanceMagnitude planet1 planet2).2.velo =
      ⟨.fin (vx2 - (10 * m1 * m2 / d ^ 2) * ((x2 - x1) / d) / m2),
       .fin (vy2 - (10 * m1 * m2 / d ^ 2) * ((y2 - y1) / d) / m2)⟩ ∧
    (UpdatePairwise distanceMagnitude planet1 planet2).1.velo =
      ⟨.fin (vx1 + 10 * m2 * (x2 - x1) / d ^ 3), .fin (vy1 + 10 * m2 * (y2 - y1) / d ^ 3)⟩ ∧
    (UpdatePairwise distanceMagnitude planet1 planet2).2.velo =
      ⟨.fin (vx2 + -10 * m1 * (x2 - x1) / d ^ 3), .fin (vy2 + -10 * m1 * (y2 - y1) / d ^ 3)⟩ := by
  have hdz : d ≠ 0 := magnitude_ne_zero hpos hd
  have h := UpdatePairwise_finite distanceMagnitude planet1 planet2 m1 m2 x1 y1 x2 y2 vx1 vy1
    vx2 vy2 d hm1 hm2 hp1 hp2 hv1 hv2 hmag hm1z hm2z hdz
  have e1 : ∀ (v t : F), v + 10 * m1 * m2 / (d * d) * (t / d) / m1 =
      v + (10 * m1 * m2 / d ^ 2) * (t / d) / m1 := by
    intro v t; rw [pow_two]
  have e2 : ∀ (v t : F), v + -(10 * m1 * m2 / (d * d)) * (t / d) / m2 =
      v - (10 * m1 * m2 / d ^ 2) * (t / d) / m2 := by
    intro v t; rw [pow_two]; ring
  have e3 : ∀ (v t : F), v + 10 * m1 * m2 / (d * d) * (t / d) / m1 =
      v + 10 * m2 * t / d ^ 3 := by
    intro v t; field_simp; ring
  have e4 : ∀ (v t : F), v + -(10 * m1 * m2 / (d * d)) * (t / d) / m2 =
      v + -10 * m1 * t / d ^ 3 := by
    intro v t; field_simp; ring
  refine ⟨rfl, ?_, ?_, ?_, ?_⟩
  · rw [h.1, e1, e1]
  · rw [h.2, e2, e2]
  · rw [h.1, e3, e3]
  · rw [h.2, e4, e4]

/-- C8 at `bodyA` and `bodyB`: the force is `10 * 2 * 5 / 25 = 4` along `(3/5, 4/5)`, so the
velocity of `bodyA` goes from `(1, 0)` to `(11/5, 8/5)`. -/
theorem force_law_witness :
    ((0 : ℚ), (0 : ℚ)) ≠ (3, 4) ∧
    euclideanMagnitude ⟨.fin (3 - 0), .fin (4 - 0)⟩ = .fin 5 ∧
    (UpdatePairwise euclideanMagnitude bodyA bodyB).1.velo =
      ⟨.fin (1 + 10 * 5 * (3 - 0) / 5 ^ 3), .fin (0 + 10 * 5 * (4 - 0) / 5 ^ 3)⟩ :=
  have hmag : euclideanMagnitude ⟨.fin (3 - 0), .fin (4 - 0)⟩ = .fin 5 :=
    euclideanMagnitude_of_sq _ _ 5 (by norm_num) (by norm_num)
  ⟨by decide, hmag,
    (force_law euclideanMagnitude bodyA bodyB 2 5 0 0 3 4 1 0 0 (-1) 5 rfl rfl rfl rfl rfl
      rfl (by norm_num) (by norm_num) (by decide) hmag (by norm_num) (by norm_num)).2.2.2.1⟩

/-- C9. Semi-implicit Euler ordering within one pair: for every two planets, the position of each
after `UpdatePairwise` is its old position plus its new, just-updated velocity; the same holds
of the two records in memory when the update runs on two different addresses. For the sample
pair the position differs from the one the old velocity would have given: `bodyA` ends at
`(11/5, 8/5)`, not at `(1, 0)`. -/
theorem position_uses_new_velocity {F : Type} [Field F] [DecidableEq F]
    (distanceMagnitude : Vector2 F → CFloat F) (planet1 planet2 : Planet F) :
    ((UpdatePairwise distanceMagnitude planet1 planet2).1.pos =
      ⟨planet1.pos.x + (UpdatePairwise distanceMagnitude planet1 planet2).1.velo.x,
       planet1.pos.y + (UpdatePairwise distanceMagnitude planet1 planet2).1.velo.y⟩ ∧
     (UpdatePairwise distanceMagnitude planet1 planet2).2.pos =
      ⟨planet2.pos.x + (UpdatePairwise distanceMagnitude planet1 planet2).2.velo.x,
       planet2.pos.y + (UpdatePairwise distanceMagnitude planet1 planet2).2.velo.y⟩) ∧
    (∀ (mem : Memory F) (a b : Nat), a ≠ b →
      (UpdatePairwiseAt distanceMagnitude mem a b a).pos =
        ⟨(mem a).pos.x + (UpdatePairwiseAt distanceMagnitude mem a b a).velo.x,
         (mem a).pos.y + (UpdatePairwiseAt distanceMagnitude mem a b a).velo.y⟩ ∧
      (UpdatePairwiseAt distanceMagnitude mem a b b).pos =
        ⟨(mem b).pos.x + (UpdatePairwiseAt distanceMagnitude mem a b b).velo.x,
         (mem b).pos.y + (UpdatePairwiseAt distanceMagnitude mem a b b).velo.y⟩) ∧
    ((UpdatePairwise euclideanMagnitude bodyA bodyB).1.pos = ⟨.fin (11 / 5), .fin (8 / 5)⟩ ∧
     (⟨bodyA.pos.x + bodyA.velo.x, bodyA.pos.y + bodyA.velo.y⟩ : Vector2 ℚ) =
        ⟨.fin 1, .fin 0⟩) := by
  refine ⟨⟨rfl, rfl⟩, ?_, ?_, ?_⟩
  · intro mem a b hab
    rw [UpdatePairwiseAt_eq distanceMagnitude mem hab, Function.update_same,
      Function.update_noteq hab, Function.update_same]
    exact ⟨rfl, rfl⟩
  · have hmag : euclideanMagnitude ⟨.fin (3 - 0), .fin (4 - 0)⟩ = .fin 5 :=
      euclideanMagnitude_of_sq _ _ 5 (by norm_num) (by norm_num)
    have h := (UpdatePairwise_finite euclideanMagnitude bodyA bodyB 2 5 0 0 3 4 1 0 0 (-1) 5
      rfl rfl rfl rfl rfl rfl hmag (by norm_num) (by norm_num) (by norm_num)).1
    have hpos : (UpdatePairwise euclideanMagnitude bodyA bodyB).1.pos =
        ⟨bodyA.pos.x + (UpdatePairwise euclideanMagnitude bodyA bodyB).1.velo.x,
         bodyA.pos.y + (UpdatePairwise euclideanMagnitude bodyA bodyB).1.velo.y⟩ := rfl
    rw [hpos, h]
    simp only [bodyA, CFloat.fin_add_fin]
    norm_num
  · simp only [bodyA, CFloat.fin_add_fin]
    norm_num

/-- C10, refuted at a concrete input: `earth` and `marsAtEarth` are inserted at one position.
One step with the assertion compiled out returns a memory in which velocity and position of
both planets are not finite, although all four were finite before; and with the assertion
active the step ends the process. Nothing is reported in either case. -/
theorem coincident_step_gives_nan :
    (twinPool.2 (twinPool.1.pool_array 0)).pos = (twinPool.2 (twinPool.1.pool_array 1)).pos ∧
    (twinPool.2 (twinPool.1.pool_array 0)).velo = ⟨.fin (-5 / 2), .fin (7 / 2)⟩ ∧
    (twinPool.2 (twinPool.1.pool_array 1)).velo = ⟨.fin (-3 / 2), .fin (5 / 2)⟩ ∧
    (∃ mem1 : Memory ℚ,
      UpdateTrajectories true euclideanMagnitude twinPool.1 (by decide) twinPool.2 = some mem1 ∧
      (mem1 (twinPool.1.pool_array 0)).velo = ⟨.nan, .nan⟩ ∧
      (mem1 (twinPool.1.pool_array 0)).pos = ⟨.nan, .nan⟩ ∧
      (mem1 (twinPool.1.pool_array 1)).velo = ⟨.nan, .nan⟩ ∧
      (mem1 (twinPool.1.pool_array 1)).pos = ⟨.nan, .nan⟩) ∧
    UpdateTrajectories false euclideanMagnitude twinPool.1 (by decide) twinPool.2 = none := by
  have hzero : euclideanMagnitude ⟨.fin 0, .fin 0⟩ = .fin 0 :=
    euclideanMagnitude_of_sq 0 0 0 (le_refl 0) (by norm_num)
  have hs0 : twinPool.1.pool_array ⟨0, by decide⟩ = 4096 := rfl
  have hs1 : twinPool.1.pool_array ⟨1, by decide⟩ = 4160 := rfl
  have hr0 : twinPool.2 4096 = storedRecord earth := rfl
  have hr1 : twinPool.2 4160 = storedRecord marsAtEarth := rfl
  have hpair := UpdatePairwise_coincident euclideanMagnitude (storedRecord earth)
    (storedRecord marsAtEarth) (x := 870) (y := 600) rfl rfl hzero
  refine ⟨rfl, rfl, rfl, ?_, ?_⟩
  · refine ⟨UpdatePairwiseAt euclideanMagnitude twinPool.2 (twinPool.1.pool_array ⟨0, by decide⟩)
      (twinPool.1.pool_array ⟨1, by decide⟩), ?_, ?_⟩
    · rw [UpdateTrajectories_two true euclideanMagnitude twinPool.1 (by decide) twinPool.2 rfl]
      rfl
    · have e0 : twinPool.1.pool_array 0 = 4096 := rfl
      have e1 : twinPool.1.pool_array 1 = 4160 := rfl
      rw [e0, e1, hs0, hs1, UpdatePairwiseAt_eq euclideanMagnitude twinPool.2 (by decide), hr0, hr1]
      refine ⟨?_, ?_, ?_, ?_⟩
      · rw [Function.update_noteq (by decide), Function.update_same]; exact hpair.1
      · rw [Function.update_noteq (by decide), Function.update_same]; exact hpair.2.1
      · rw [Function.update_same]; exact hpair.2.2.1
      · rw [Function.update_same]; exact hpair.2.2.2
  · rw [UpdateTrajectories_two false euclideanMagnitude twinPool.1 (by decide) twinPool.2 rfl]
    rfl

/-- C10, amended. The code has no zero-distance guard: for two planets at one finite position,
the magnitude of the zero vector being zero, `UpdatePairwise` divides by zero and leaves both
planets with a non-finite velocity and a non-finite position, whatever their masses and
velocities were; and a step over a pool holding just these two planets stores those records
(assertion compiled out) or ends the process (assertion active), reporting nothing. -/
theorem zero_distance_unguarded {F : Type} [Field F] [DecidableEq F]
    (distanceMagnitude : Vector2 F → CFloat F) (x y : F)
    (hmag : distanceMagnitude ⟨.fin 0, .fin 0⟩ = .fin 0) :
    (∀ planet1 planet2 : Planet F,
      planet1.pos = ⟨.fin x, .fin y⟩ → planet2.pos = ⟨.fin x, .fin y⟩ →
      (UpdatePairwise distanceMagnitude planet1 planet2).1.velo = ⟨.nan, .nan⟩ ∧
      (UpdatePairwise distanceMagnitude planet1 planet2).1.pos = ⟨.nan, .nan⟩ ∧
      (UpdatePairwise distanceMagnitude planet1 planet2).2.velo = ⟨.nan, .nan⟩ ∧
      (UpdatePairwise distanceMagnitude planet1 planet2).2.pos = ⟨.nan, .nan⟩) ∧
    (∀ (pool : PlanetPool) (hsize : pool.pool_size ≤ MAX_PLANETS) (mem : Memory F),
      pool.pool_size = 2 → pool.pool_array 0 ≠ pool.pool_array 1 →
      (mem (pool.pool_array 0)).pos = ⟨.fin x, .fin y⟩ →
      (mem (pool.pool_array 1)).pos = ⟨.fin x, .fin y⟩ →
      UpdateTrajectories false distanceMagnitude pool hsize mem = none ∧
      ∃ mem1 : Memory F,
        UpdateTrajectories true distanceMagnitude pool hsize mem = some mem1 ∧
        (mem1 (pool.pool_array 0)).velo = ⟨.nan, .nan⟩ ∧
        (mem1 (pool.pool_array 0)).pos = ⟨.nan, .nan⟩ ∧
        (mem1 (pool.pool_array 1)).velo = ⟨.nan, .nan⟩ ∧
        (mem1 (pool.pool_array 1)).pos = ⟨.nan, .nan⟩) := by
  constructor
  · intro planet1 planet2 hp1 hp2
    exact UpdatePairwise_coincident distanceMagnitude planet1 planet2 hp1 hp2 hmag
  · intro pool hsize mem h2 hne hp1 hp2
    have hpair := UpdatePairwise_coincident distanceMagnitude _ _ hp1 hp2 hmag
    have hstep := fun nd => UpdateTrajectories_two nd distanceMagnitude pool hsize mem h2
    have h0 : pool.pool_array ⟨0, by decide⟩ = pool.pool_array 0 := rfl
    have h1 : pool.pool_array ⟨1, by decide⟩ = pool.pool_array 1 := rfl
    refine ⟨by rw [hstep false]; rfl,
      UpdatePairwiseAt distanceMagnitude mem (pool.pool_array 0) (pool.pool_array 1),
      by rw [hstep true, h0, h1]; rfl, ?_⟩
    rw [UpdatePairwiseAt_eq distanceMagnitude mem hne]
    refine ⟨?_, ?_, ?_, ?_⟩
    · rw [Function.update_noteq hne, Function.update_same]; exact hpair.1
    · rw [Function.update_noteq hne, Function.update_same]; exact hpair.2.1
    · rw [Function.update_same]; exact hpair.2.2.1
    · rw [Function.update_same]; exact hpair.2.2.2

/-- C10 amended, at `earth` and `marsAtEarth` with the spec's magnitude. -/
theorem zero_distance_unguarded_witness :
    euclideanMagnitude ⟨.fin 0, .fin 0⟩ = .fin 0 ∧
    earth.pos = ⟨.fin 870, .fin 600⟩ ∧ marsAtEarth.pos = ⟨.fin 870, .fin 600⟩ ∧
    (UpdatePairwise euclideanMagnitude earth marsAtEarth).1.velo = ⟨.nan, .nan⟩ ∧
    (UpdatePairwise euclideanMagnitude earth marsAtEarth).2.pos = ⟨.nan, .nan⟩ :=
  have hzero : euclideanMagnitude ⟨.fin 0, .fin 0⟩ = .fin 0 :=
    euclideanMagnitude_of_sq 0 0 0 (le_refl 0) (by norm_num)
  have h := (zero_distance_unguarded euclideanMagnitude 870 600 hzero).1 earth marsAtEarth
    rfl rfl
  ⟨hzero, rfl, rfl, h.1, h.2.2.2⟩

/-! ## Integrator loops: lemmas -/

/-- Inside the array, `slot` is the array entry. -/
theorem PlanetPool.slot_eq (pool : PlanetPool) (k : Nat) (h : k < MAX_PLANETS) :
    pool.slot k = pool.pool_array ⟨k, h⟩ := by
  unfold PlanetPool.slot
  rw [dif_pos h]

/-- The inner loop with the assertion compiled out: a left fold over `j, j + 1, ..`. -/
theorem UpdateTrajectories.inner_eq_fold {F : Type} [Field F] [DecidableEq F]
    (distanceMagnitude : Vector2 F → CFloat F) (pool : PlanetPool)
    (hsize : pool.pool_size ≤ MAX_PLANETS) (i : Nat) (hi : i < pool.pool_size) :
    ∀ (count j : Nat) (mem : Memory F), j + count = pool.pool_size →
      UpdateTrajectories.inner true distanceMagnitude pool hsize i hi j mem =
        some (foldPairs distanceMagnitude pool ((List.range' j count).map (fun c => (i, c))) mem) := by
  intro count
  induction count with
  | zero =>
    intro j mem hj
    rw [UpdateTrajectories.inner, dif_neg (by omega)]
    rfl
  | succ c ih =>
    intro j mem hj
    rw [UpdateTrajectories.inner, dif_pos (by omega)]
    simp only [CheckCollision, if_true]
    rw [ih (j + 1) _ (by omega)]
    simp only [foldPairs, List.range'_succ, List.map_cons, List.foldl_cons]
    rw [PlanetPool.slot_eq pool i (by omega), PlanetPool.slot_eq pool j (by omega)]

/-- The outer loop with the assertion compiled out: a left fold over the blocks of pairs of
`i, i + 1, ..`. -/
theorem UpdateTrajectories.outer_eq_fold {F : Type} [Field F] [DecidableEq F]
    (distanceMagnitude : Vector2 F → CFloat F) (pool : PlanetPool)
    (hsize : pool.pool_size ≤ MAX_PLANETS) :
    ∀ (count i : Nat) (mem : Memory F), i + count = pool.pool_size →
      UpdateTrajectories.outer true distanceMagnitude pool hsize i mem =
        some (foldPairs distanceMagnitude pool
          ((List.range' i count).flatMap (fun a =>
            (List.range' (a + 1) (pool.pool_size - (a + 1))).map (fun c => (a, c)))) mem) := by
  intro count
  induction count with
  | zero =>
    intro i mem hi
    rw [UpdateTrajectories.outer, dif_neg (by omega)]
    rfl
  | succ c ih =>
    intro i mem hi
    rw [UpdateTrajectories.outer, dif_pos (by omega)]
    rw [UpdateTrajectories.inner_eq_fold distanceMagnitude pool hsize i (by omega)
      (pool.pool_size - (i + 1)) (i + 1) mem (by omega)]
    simp only
    rw [ih (i + 1) _ (by omega)]
    simp only [foldPairs, List.range'_succ, List.flatMap_cons, List.foldl_append]

/-- A step with the assertion compiled out is the fold of the pair update over `loopPairs`. -/
theorem UpdateTrajectories_eq_loopPairs {F : Type} [Field F] [DecidableEq F]
    (distanceMagnitude : Vector2 F → CFloat F) (pool : PlanetPool)
    (hsize : pool.pool_size ≤ MAX_PLANETS) (mem : Memory F) :
    UpdateTrajectories true distanceMagnitude pool hsize mem =
      some (foldPairs distanceMagnitude pool (loopPairs pool.pool_size) mem) := by
  unfold UpdateTrajectories
  rw [UpdateTrajectories.outer_eq_fold distanceMagnitude pool hsize pool.pool_size 0 mem
    (by omega), loopPairs, List.range_eq_range']

/-- The indices above `i` among those below `n`. -/
theorem filter_lt_range (i n : Nat) :
    (List.range n).filter (fun j => decide (i < j)) = List.range' (i + 1) (n - (i + 1)) := by
  induction n with
  | zero => simp
  | succ n ih =>
    rw [List.range_succ, List.filter_append, ih]
    by_cases h : i < n
    · have e : n + 1 - (i + 1) = (n - (i + 1)) + 1 := by omega
      rw [e, List.range'_concat]
      simp [h]
      omega
    · have e1 : n + 1 - (i + 1) = 0 := by omega
      have e2 : n - (i + 1) = 0 := by omega
      simp [h, e1, e2]

/-- The pairs `i < j < n` in lexicographic order are the pairs in loop order. -/
theorem indexPairs_eq_loopPairs (n : Nat) : indexPairs n = loopPairs n := by
  unfold indexPairs loopPairs List.product
  rw [List.filter_flatMap]
  congr 1
  funext i
  rw [List.filter_map, ← filter_lt_range]
  rfl

/-! ## Index pairs: lemmas -/

/-- Twice the number of loop pairs, block by block. -/
theorem sum_pairs_aux (n : Nat) :
    ((List.range n).map (fun i => n - (i + 1))).sum * 2 = n * (n - 1) := by
  induction n with
  | zero => simp
  | succ n ih =>
    rw [List.range_succ, List.map_append, List.sum_append]
    have h : (List.range n).map (fun i => n + 1 - (i + 1)) =
        (List.range n).map (fun i => (n - (i + 1)) + 1) := by
      apply List.map_congr_left
      intro i hi
      rw [List.mem_range] at hi
      omega
    rw [h]
    have h2 : ∀ (l : List Nat) (g : Nat → Nat), (l.map (fun i => g i + 1)).sum =
        (l.map g).sum + l.length := by
      intro l g
      induction l with
      | nil => simp
      | cons a t iht => simp [iht]; omega
    rw [h2]
    simp only [List.length_range, List.map_cons, List.map_nil, List.sum_cons, List.sum_nil]
    have e : n + 1 - (n + 1) = 0 := by omega
    rw [e]
    cases n with
    | zero => simp
    | succ m =>
      simp only [Nat.add_sub_cancel] at ih ⊢
      nlinarith [ih]


/-- How often `k` occurs in a run of consecutive numbers. -/
theorem countP_eq_in_range (k s m : Nat) :
    (List.range' s m).countP (fun j => decide (j = k)) = if s ≤ k ∧ k < s + m then 1 else 0 := by
  induction m with
  | zero => rw [if_neg (by omega)]; rfl
  | succ m ih =>
    rw [List.range'_concat, List.countP_append, ih]
    simp only [List.countP_cons, List.countP_nil, Nat.zero_add, decide_eq_true_eq]
    by_cases h1 : s ≤ k ∧ k < s + m
    · rw [if_pos h1, if_neg (by omega), if_pos (by omega)]
    · rw [if_neg h1]
      by_cases h2 : s + 1 * m = k
      · rw [if_pos h2, if_pos (by omega)]
      · rw [if_neg h2, if_neg (by omega)]

/-- How many pairs of block `i` involve the index `k`. -/
theorem block_count (n k i : Nat) (hk : k < n) :
    ((List.range' (i + 1) (n - (i + 1))).map (fun j => (i, j))).countP
        (fun p => decide (p.1 = k) || decide (p.2 = k)) =
      if i = k then n - (k + 1) else if i < k then 1 else 0 := by
  rw [List.countP_map]
  by_cases h : i = k
  · subst h
    rw [if_pos rfl]
    have : ((fun p : Nat × Nat => decide (p.1 = i) || decide (p.2 = i)) ∘ fun j => (i, j)) =
        fun _ => true := by
      funext j; simp
    rw [this]
    simp
  · rw [if_neg h]
    have : ((fun p : Nat × Nat => decide (p.1 = k) || decide (p.2 = k)) ∘ fun j => (i, j)) =
        fun j => decide (j = k) := by
      funext j; simp [h]
    rw [this, countP_eq_in_range]
    by_cases h2 : i < k
    · rw [if_pos h2, if_pos (by omega)]
    · rw [if_neg h2, if_neg (by omega)]

/-- The pairs involving `k`, summed over the first `m` blocks. -/
theorem sum_block_counts (n k : Nat) (hk : k < n) (m : Nat) :
    ((List.range m).map (fun i => if i = k then n - (k + 1) else if i < k then 1 else 0)).sum =
      if m ≤ k then m else n - 1 := by
  induction m with
  | zero => simp
  | succ m ih =>
    rw [List.sum_range_succ, ih]
    by_cases h1 : m < k
    · rw [if_pos (by omega), if_neg (by omega), if_pos h1, if_pos (by omega)]
    · by_cases h2 : m = k
      · rw [if_pos (by omega), if_pos h2, if_neg (by omega)]; omega
      · rw [if_neg (by omega), if_neg h2, if_neg h1, if_neg (by omega)]; omega

/-- There are `n * (n - 1) / 2` loop pairs. -/
theorem loopPairs_length (n : Nat) : (loopPairs n).length = n * (n - 1) / 2 := by
  have h : (loopPairs n).length * 2 = n * (n - 1) := by
    unfold loopPairs
    rw [List.length_flatMap]
    have e : (List.length ∘ fun i => (List.range' (i + 1) (n - (i + 1))).map (fun j => (i, j))) =
        fun i => n - (i + 1) := by
      funext i; simp
    rw [e, sum_pairs_aux]
  omega

/-- Every index below `n` is in exactly `n - 1` loop pairs. -/
theorem loopPairs_count (n k : Nat) (hk : k < n) :
    (loopPairs n).countP (fun p => decide (p.1 = k) || decide (p.2 = k)) = n - 1 := by
  unfold loopPairs
  rw [List.countP_flatMap]
  have e : (List.countP (fun p : Nat × Nat => decide (p.1 = k) || decide (p.2 = k)) ∘
      fun i => (List.range' (i + 1) (n - (i + 1))).map (fun j => (i, j))) =
      fun i => if i = k then n - (k + 1) else if i < k then 1 else 0 := by
    funext i
    exact block_count n k i hk
  rw [e, sum_block_counts n k hk n, if_neg (by omega)]

/-- The index pairs are the pairs `i < j < n`. -/
theorem mem_indexPairs (n i j : Nat) : (i, j) ∈ indexPairs n ↔ i < j ∧ j < n := by
  unfold indexPairs
  rw [List.mem_filter, List.pair_mem_product, List.mem_range, List.mem_range]
  simp only [decide_eq_true_eq]
  omega

/-- The index pairs are listed in strictly increasing lexicographic order. -/
theorem indexPairs_sorted (n : Nat) :
    (indexPairs n).Pairwise (fun p q => p.1 < q.1 ∨ (p.1 = q.1 ∧ p.2 < q.2)) := by
  unfold indexPairs
  apply List.Pairwise.filter
  unfold List.product
  rw [List.pairwise_flatMap]
  constructor
  · intro a _
    rw [List.pairwise_map]
    exact (List.pairwise_lt_range n).imp (fun h => Or.inr ⟨rfl, h⟩)
  · refine (List.pairwise_lt_range n).imp ?_
    intro a b hab x hx y hy
    rw [List.mem_map] at hx hy
    obtain ⟨_, _, rfl⟩ := hx
    obtain ⟨_, _, rfl⟩ := hy
    exact Or.inl hab

/-! ## Integrator step: lemmas -/

/-- A pool of fewer than two planets: the step makes no pair update, does not reach the
collision hook and returns the memory as it was. -/
theorem UpdateTrajectories_small {F : Type} [Field F] [DecidableEq F] (NDEBUG : Bool)
    (distanceMagnitude : Vector2 F → CFloat F) (pool : PlanetPool)
    (hsize : pool.pool_size ≤ MAX_PLANETS) (mem : Memory F) (hlt : pool.pool_size < 2) :
    UpdateTrajectories NDEBUG distanceMagnitude pool hsize mem = some mem := by
  unfold UpdateTrajectories
  by_cases h0 : pool.pool_size = 0
  · rw [UpdateTrajectories.outer, dif_neg (by omega)]
  · rw [UpdateTrajectories.outer, dif_pos (by omega)]
    rw [UpdateTrajectories.inner, dif_neg (by omega)]
    simp only
    rw [UpdateTrajectories.outer, dif_neg (by omega)]

/-- A pool of two or more planets, assertion active: the first call of the collision hook ends
the process. -/
theorem UpdateTrajectories_aborts {F : Type} [Field F] [DecidableEq F]
    (distanceMagnitude : Vector2 F → CFloat F) (pool : PlanetPool)
    (hsize : pool.pool_size ≤ MAX_PLANETS) (mem : Memory F) (hge : 2 ≤ pool.pool_size) :
    UpdateTrajectories false distanceMagnitude pool hsize mem = none := by
  unfold UpdateTrajectories
  rw [UpdateTrajectories.outer, dif_pos (by omega)]
  rw [UpdateTrajectories.inner, dif_pos (by omega)]
  simp [CheckCollision]

/-- Any number of steps over a pool of fewer than two planets returns the memory as it was. -/
theorem UpdateTrajectories.run_small {F : Type} [Field F] [DecidableEq F] (NDEBUG : Bool)
    (distanceMagnitude : Vector2 F → CFloat F) (pool : PlanetPool)
    (hsize : pool.pool_size ≤ MAX_PLANETS) (mem : Memory F) (hlt : pool.pool_size < 2)
    (ticks : Nat) :
    UpdateTrajectories.run NDEBUG distanceMagnitude pool hsize ticks mem = some mem := by
  induction ticks with
  | zero => rfl
  | succ n ih =>
    rw [UpdateTrajectories.run, UpdateTrajectories_small NDEBUG distanceMagnitude pool hsize mem hlt]
    exact ih

/-- One pair update on memory changes no name, mass, diameter or accel, and no record other
than the two it is given. -/
theorem UpdatePairwiseAt_frame {F : Type} [Field F] [DecidableEq F]
    (distanceMagnitude : Vector2 F → CFloat F) (mem : Memory F) (p1 p2 a : Nat) :
    ((UpdatePairwiseAt distanceMagnitude mem p1 p2 a).name = (mem a).name ∧
     (UpdatePairwiseAt distanceMagnitude mem p1 p2 a).mass = (mem a).mass ∧
     (UpdatePairwiseAt distanceMagnitude mem p1 p2 a).diameter = (mem a).diameter ∧
     (UpdatePairwiseAt distanceMagnitude mem p1 p2 a).accel = (mem a).accel) ∧
    (a ≠ p1 → a ≠ p2 → UpdatePairwiseAt distanceMagnitude mem p1 p2 a = mem a) := by
  constructor
  · by_cases h1 : a = p1 <;> by_cases h2 : a = p2 <;>
      simp [UpdatePairwiseAt, Function.update, h1, h2] <;>
      (try subst h1) <;> (try subst h2) <;> simp_all
  · intro h1 h2
    simp [UpdatePairwiseAt, Function.update, h1, h2]

/-- A fold of pair updates changes no name, mass, diameter or accel, and no record that none of
the listed pairs points at. -/
theorem foldPairs_frame {F : Type} [Field F] [DecidableEq F]
    (distanceMagnitude : Vector2 F → CFloat F) (pool : PlanetPool) (pairs : List (Nat × Nat)) :
    ∀ (mem : Memory F) (a : Nat),
      ((foldPairs distanceMagnitude pool pairs mem a).name = (mem a).name ∧
       (foldPairs distanceMagnitude pool pairs mem a).mass = (mem a).mass ∧
       (foldPairs distanceMagnitude pool pairs mem a).diameter = (mem a).diameter ∧
       (foldPairs distanceMagnitude pool pairs mem a).accel = (mem a).accel) ∧
      ((∀ p ∈ pairs, pool.slot p.1 ≠ a ∧ pool.slot p.2 ≠ a) →
        foldPairs distanceMagnitude pool pairs mem a = mem a) := by
  induction pairs with
  | nil => intro mem a; exact ⟨⟨rfl, rfl, rfl, rfl⟩, fun _ => rfl⟩
  | cons p rest ih =>
    intro mem a
    have hstep := UpdatePairwiseAt_frame distanceMagnitude mem (pool.slot p.1) (pool.slot p.2) a
    have hrest := ih (UpdatePairwiseAt distanceMagnitude mem (pool.slot p.1) (pool.slot p.2)) a
    have hunfold : foldPairs distanceMagnitude pool (p :: rest) mem =
        foldPairs distanceMagnitude pool rest
          (UpdatePairwiseAt distanceMagnitude mem (pool.slot p.1) (pool.slot p.2)) := rfl
    rw [hunfold]
    refine ⟨⟨hrest.1.1.trans hstep.1.1, hrest.1.2.1.trans hstep.1.2.1,
      hrest.1.2.2.1.trans hstep.1.2.2.1, hrest.1.2.2.2.trans hstep.1.2.2.2⟩, ?_⟩
    intro hfree
    have hp := hfree p (List.mem_cons_self p rest)
    rw [hrest.2 (fun q hq => hfree q (List.mem_cons_of_mem p hq))]
    exact hstep.2 (Ne.symm hp.1) (Ne.symm hp.2)

/-! ## Integrator step: theorems -/

/-- C11, refuted at a concrete input: the pool `main` builds holds `earth`, `sun` and `mars`;
with the assertion active the first step does not return, the process ends in
`CheckCollision` after the first pair update. -/
theorem main_first_step_aborts :
    mainPool.1.pool_size = 3 ∧
    UpdateTrajectories false euclideanMagnitude mainPool.1 (by decide) mainPool.2 = none := by
  refine ⟨rfl, ?_⟩
  exact UpdateTrajectories_aborts euclideanMagnitude mainPool.1 (by decide) mainPool.2
    (by decide)

/-- C11, amended. With the assertion of `CheckCollision` active, `UpdateTrajectories` returns
normally exactly for the pools of fewer than two planets: a pool of two or more planets ends the
process in the first call of the hook. With the assertion compiled out the step returns for
every pool. -/
theorem collision_hook_is_fatal {F : Type} [Field F] [DecidableEq F]
    (distanceMagnitude : Vector2 F → CFloat F) (pool : PlanetPool)
    (hsize : pool.pool_size ≤ MAX_PLANETS) (mem : Memory F) :
    (pool.pool_size < 2 →
      UpdateTrajectories false distanceMagnitude pool hsize mem = some mem) ∧
    (2 ≤ pool.pool_size →
      UpdateTrajectories false distanceMagnitude pool hsize mem = none) ∧
    (∃ mem1 : Memory F,
      UpdateTrajectories true distanceMagnitude pool hsize mem = some mem1) :=
  ⟨UpdateTrajectories_small false distanceMagnitude pool hsize mem,
   UpdateTrajectories_aborts distanceMagnitude pool hsize mem,
   _, UpdateTrajectories_eq_loopPairs distanceMagnitude pool hsize mem⟩

/-- C11 amended, at the pool with `earth` and `marsAtEarth`: two planets, so the step aborts
with the assertion active and returns with it compiled out. -/
theorem collision_hook_is_fatal_witness :
    twinPool.1.pool_size ≤ MAX_PLANETS ∧ 2 ≤ twinPool.1.pool_size ∧
    UpdateTrajectories false euclideanMagnitude twinPool.1 (by decide) twinPool.2 = none :=
  ⟨by decide, by decide,
    (collision_hook_is_fatal euclideanMagnitude twinPool.1 (by decide) twinPool.2).2.1
      (by decide)⟩

/-- C12. Pair coverage: with the assertion compiled out, for every pool of `n` planets
`UpdateTrajectories` is the left fold of the pair update over the index pairs `(i, j)` with
`0 ≤ i < j < n` in lexicographic order; that list holds exactly the pairs `i < j < n`, each
once, `n * (n - 1) / 2` in total, and every index below `n` is in exactly `n - 1` of them. -/
theorem pair_coverage {F : Type} [Field F] [DecidableEq F]
    (distanceMagnitude : Vector2 F → CFloat F) (pool : PlanetPool)
    (hsize : pool.pool_size ≤ MAX_PLANETS) (mem : Memory F) :
    UpdateTrajectories true distanceMagnitude pool hsize mem =
      some (foldPairs distanceMagnitude pool (indexPairs pool.pool_size) mem) ∧
    (∀ i j : Nat, (i, j) ∈ indexPairs pool.pool_size ↔ i < j ∧ j < pool.pool_size) ∧
    (indexPairs pool.pool_size).Pairwise (fun p q => p.1 < q.1 ∨ (p.1 = q.1 ∧ p.2 < q.2)) ∧
    (indexPairs pool.pool_size).Nodup ∧
    (indexPairs pool.pool_size).length = pool.pool_size * (pool.pool_size - 1) / 2 ∧
    (∀ k : Nat, k < pool.pool_size →
      (indexPairs pool.pool_size).countP (fun p => decide (p.1 = k) || decide (p.2 = k)) =
        pool.pool_size - 1) := by
  refine ⟨?_, mem_indexPairs _, indexPairs_sorted _, ?_, ?_, ?_⟩
  · rw [indexPairs_eq_loopPairs]
    exact UpdateTrajectories_eq_loopPairs distanceMagnitude pool hsize mem
  · refine (indexPairs_sorted pool.pool_size).imp ?_
    intro p q h heq
    subst heq
    omega
  · rw [indexPairs_eq_loopPairs]; exact loopPairs_length _
  · intro k hk
    rw [indexPairs_eq_loopPairs]; exact loopPairs_count _ k hk

/-- C12 at the pool of `main`: three planets, hence the three pairs `(0, 1)`, `(0, 2)`,
`(1, 2)` in that order. -/
theorem pair_coverage_witness :
    mainPool.1.pool_size ≤ MAX_PLANETS ∧
    indexPairs mainPool.1.pool_size = [(0, 1), (0, 2), (1, 2)] ∧
    UpdateTrajectories true euclideanMagnitude mainPool.1 (by decide) mainPool.2 =
      some (foldPairs euclideanMagnitude mainPool.1 (indexPairs mainPool.1.pool_size)
        mainPool.2) :=
  ⟨by decide, by decide,
    (pair_coverage euclideanMagnitude mainPool.1 (by decide) mainPool.2).1⟩

/-- C17. Frame of the integrator: whenever a step returns, every record of the memory has the
name, mass, diameter and accel it had before, and every record that no live slot points at is
unchanged altogether; the same holds of a single pair update, on memory and on the two records.
The pool itself (pool_size, slots, arena) is only read by the step: it is an input of
`UpdateTrajectories` and not part of what the step writes. -/
theorem integrator_frame {F : Type} [Field F] [DecidableEq F] (NDEBUG : Bool)
    (distanceMagnitude : Vector2 F → CFloat F) (pool : PlanetPool)
    (hsize : pool.pool_size ≤ MAX_PLANETS) (mem mem1 : Memory F)
    (hstep : UpdateTrajectories NDEBUG distanceMagnitude pool hsize mem = some mem1) :
    (∀ a : Nat,
      (mem1 a).name = (mem a).name ∧ (mem1 a).mass = (mem a).mass ∧
      (mem1 a).diameter = (mem a).diameter ∧ (mem1 a).accel = (mem a).accel) ∧
    (∀ a : Nat, (∀ k : Nat, k < pool.pool_size → pool.slot k ≠ a) → mem1 a = mem a) ∧
    (∀ (p1 p2 a : Nat),
      (UpdatePairwiseAt distanceMagnitude mem p1 p2 a).name = (mem a).name ∧
      (UpdatePairwiseAt distanceMagnitude mem p1 p2 a).mass = (mem a).mass ∧
      (UpdatePairwiseAt distanceMagnitude mem p1 p2 a).diameter = (mem a).diameter ∧
      (UpdatePairwiseAt distanceMagnitude mem p1 p2 a).accel = (mem a).accel ∧
      (a ≠ p1 → a ≠ p2 → UpdatePairwiseAt distanceMagnitude mem p1 p2 a = mem a)) ∧
    (∀ planet1 planet2 : Planet F,
      (UpdatePairwise distanceMagnitude planet1 planet2).1.name = planet1.name ∧
      (UpdatePairwise distanceMagnitude planet1 planet2).1.mass = planet1.mass ∧
      (UpdatePairwise distanceMagnitude planet1 planet2).1.diameter = planet1.diameter ∧
      (UpdatePairwise distanceMagnitude planet1 planet2).1.accel = planet1.accel ∧
      (UpdatePairwise distanceMagnitude planet1 planet2).2.name = planet2.name ∧
      (UpdatePairwise distanceMagnitude planet1 planet2).2.mass = planet2.mass ∧
      (UpdatePairwise distanceMagnitude planet1 planet2).2.diameter = planet2.diameter ∧
      (UpdatePairwise distanceMagnitude planet1 planet2).2.accel = planet2.accel) := by
  have hmem1 : mem1 = foldPairs distanceMagnitude pool (indexPairs pool.pool_size) mem := by
    cases NDEBUG with
    | true =>
      rw [UpdateTrajectories_eq_loopPairs, Option.some.injEq] at hstep
      rw [indexPairs_eq_loopPairs]
      exact hstep.symm
    | false =>
      by_cases hlt : pool.pool_size < 2
      · rw [UpdateTrajectories_small false distanceMagnitude pool hsize mem hlt,
          Option.some.injEq] at hstep
        have hnil : indexPairs pool.pool_size = [] := by
          apply List.eq_nil_iff_forall_not_mem.mpr
          intro p hp
          have := (mem_indexPairs pool.pool_size p.1 p.2).mp hp
          omega
        rw [hnil]
        exact hstep.symm
      · rw [UpdateTrajectories_aborts distanceMagnitude pool hsize mem (by omega)] at hstep
        exact absurd hstep (by simp)
  subst hmem1
  refine ⟨fun a => (foldPairs_frame distanceMagnitude pool _ mem a).1, ?_, ?_, ?_⟩
  · intro a hfree
    apply (foldPairs_frame distanceMagnitude pool _ mem a).2
    intro p hp
    have hp2 := (mem_indexPairs pool.pool_size p.1 p.2).mp hp
    exact ⟨hfree p.1 (by omega), hfree p.2 hp2.2⟩
  · intro p1 p2 a
    have h := UpdatePairwiseAt_frame distanceMagnitude mem p1 p2 a
    exact ⟨h.1.1, h.1.2.1, h.1.2.2.1, h.1.2.2.2, h.2⟩
  · intro planet1 planet2
    exact ⟨rfl, rfl, rfl, rfl, rfl, rfl, rfl, rfl⟩

/-- C17 at the pool of `main`, assertion compiled out: after the step the record of `sun`
(slot 1, address 4160) still has its mass, and the record at address 0, which no slot points
at, is unchanged. -/
theorem integrator_frame_witness :
    mainPool.1.pool_size ≤ MAX_PLANETS ∧
    UpdateTrajectories true euclideanMagnitude mainPool.1 (by decide) mainPool.2 =
      some (foldPairs euclideanMagnitude mainPool.1 (loopPairs mainPool.1.pool_size)
        mainPool.2) ∧
    (foldPairs euclideanMagnitude mainPool.1 (loopPairs mainPool.1.pool_size)
        mainPool.2 4160).mass = (mainPool.2 4160).mass :=
  have hstep := UpdateTrajectories_eq_loopPairs euclideanMagnitude mainPool.1 (by decide)
    mainPool.2
  ⟨by decide, hstep,
    ((integrator_frame true euclideanMagnitude mainPool.1 (by decide) mainPool.2 _ hstep).1
      4160).2.1⟩

/-- C19. A pool with fewer than two planets is frozen: when `pool_size` is 0 or 1 there is no
index pair, and `UpdateTrajectories` returns the memory as it was, also with the assertion
active (the collision hook is not reached); so does any number of steps in a row. -/
theorem small_pool_is_frozen {F : Type} [Field F] [DecidableEq F] (NDEBUG : Bool)
    (distanceMagnitude : Vector2 F → CFloat F) (pool : PlanetPool)
    (hsize : pool.pool_size ≤ MAX_PLANETS) (mem : Memory F) (hlt : pool.pool_size < 2) :
    indexPairs pool.pool_size = [] ∧
    UpdateTrajectories NDEBUG distanceMagnitude pool hsize mem = some mem ∧
    ∀ ticks : Nat,
      UpdateTrajectories.run NDEBUG distanceMagnitude pool hsize ticks mem = some mem := by
  refine ⟨?_, UpdateTrajectories_small NDEBUG distanceMagnitude pool hsize mem hlt,
    UpdateTrajectories.run_small NDEBUG distanceMagnitude pool hsize mem hlt⟩
  apply List.eq_nil_iff_forall_not_mem.mpr
  intro p hp
  have := (mem_indexPairs pool.pool_size p.1 p.2).mp hp
  omega

/-- C19 at the pool holding `earth` alone: its velocity is `(-5/2, 7/2)`, and after 1000 steps
with the assertion active the memory, hence its position, is what it was. -/
theorem small_pool_is_frozen_witness :
    lonePool.1.pool_size ≤ MAX_PLANETS ∧ lonePool.1.pool_size < 2 ∧
    (lonePool.2 (lonePool.1.pool_array 0)).velo = ⟨.fin (-5 / 2), .fin (7 / 2)⟩ ∧
    UpdateTrajectories.run false euclideanMagnitude lonePool.1 (by decide) 1000 lonePool.2 =
      some lonePool.2 :=
  ⟨by decide, by decide, rfl,
    (small_pool_is_frozen false euclideanMagnitude lonePool.1 (by decide) lonePool.2
      (by decide)).2.2 1000⟩

/-! ## Planet pool: storage, names and allocation failure -/

/-- `InitPlanetPool` returns `NULL` exactly when the pool record or the arena header could not
be allocated; the result of the third `malloc` plays no part. -/
theorem InitPlanetPool_eq_none_iff (mallocPool mallocArena mallocMemory : Nat)
    (junk : Fin MAX_PLANETS → Nat) :
    InitPlanetPool mallocPool mallocArena mallocMemory junk = none ↔
      mallocPool = NULL ∨ mallocArena = NULL := by
  unfold InitPlanetPool
  by_cases h1 : mallocPool = NULL
  · simp [h1]
  · by_cases h2 : mallocArena = NULL
    · simp [h2]
    · simp [h1, h2]

/-- `strlcpy` into a buffer of 30 bytes keeps the first 29 bytes of a string without NUL. -/
theorem strlcpy_of_cstring (name : List Nat) (hname : ∀ c ∈ name, c ≠ 0) :
    strlcpy name sizeofName = name.take 29 := by
  unfold strlcpy
  have h : name.takeWhile (fun c => c != 0) = name := by
    rw [List.takeWhile_eq_self_iff]
    intro c hc
    simpa using hname c hc
  rw [h]
  rfl

/-- Pool storage layout, backing block obtained: in a pool reached from `InitPlanetPool` (its
third `malloc` not `NULL`) by `AddPlanet` calls, the arena has `size = MAX_PLANETS * sizeof(Planet)` and
`used = pool_size * sizeof(Planet)`, its base is the block obtained, and slot `k < pool_size`
points at offset `k * sizeof(Planet)`; so every live record lies inside the arena, and the
records of two different live slots do not overlap. -/
theorem pool_storage_invariant {F : Type} (mallocPool mallocArena mallocMemory : Nat)
    (junk : Fin MAX_PLANETS → Nat) (pool0 : PlanetPool) (mem0 : Memory F)
    (hinit : InitPlanetPool mallocPool mallocArena mallocMemory junk = some pool0)
    (hmem : mallocMemory ≠ NULL) (ps : List (Planet F)) :
    (AddPlanets pool0 mem0 ps).1.arena.size = MAX_PLANETS * sizeofPlanet ∧
    (AddPlanets pool0 mem0 ps).1.arena.used =
      (AddPlanets pool0 mem0 ps).1.pool_size * sizeofPlanet ∧
    (AddPlanets pool0 mem0 ps).1.arena.memory = mallocMemory ∧
    (∀ k : Fin MAX_PLANETS, k.val < (AddPlanets pool0 mem0 ps).1.pool_size →
      (AddPlanets pool0 mem0 ps).1.pool_array k =
        (AddPlanets pool0 mem0 ps).1.arena.memory + k.val * sizeofPlanet ∧
      (AddPlanets pool0 mem0 ps).1.arena.memory ≤ (AddPlanets pool0 mem0 ps).1.pool_array k ∧
      (AddPlanets pool0 mem0 ps).1.pool_array k + sizeofPlanet ≤
        (AddPlanets pool0 mem0 ps).1.arena.memory + (AddPlanets pool0 mem0 ps).1.arena.size) ∧
    (∀ k l : Fin MAX_PLANETS, k.val < l.val →
      l.val < (AddPlanets pool0 mem0 ps).1.pool_size →
      (AddPlanets pool0 mem0 ps).1.pool_array k + sizeofPlanet ≤
        (AddPlanets pool0 mem0 ps).1.pool_array l) := by
  obtain ⟨hle, hsz, hbase, hused, hslots⟩ :=
    PoolInv_AddPlanets hmem ps pool0 mem0 (PoolInv_init hinit).1
  refine ⟨hsz, hused, hbase, ?_, ?_⟩
  · intro k hk
    rw [hslots k hk, hbase, hsz]
    have hk2 : k.val < 100 := k.isLt
    refine ⟨rfl, Nat.le_add_right _ _, ?_⟩
    simp only [MAX_PLANETS, sizeofPlanet]
    omega
  · intro k l hkl hl
    rw [hslots k (by omega), hslots l hl]
    simp only [sizeofPlanet]
    omega

/-- Pool storage layout at the pool of `main`: three records at `4096`, `4160` and `4224`,
192 bytes used. -/
theorem pool_storage_invariant_witness :
    InitPlanetPool 1 2 4096 (fun _ => 0) = some freshPool ∧ (4096 : Nat) ≠ NULL ∧
    (AddPlanets freshPool blankMemory [earth, sun, mars]).1.arena.used =
      (AddPlanets freshPool blankMemory [earth, sun, mars]).1.pool_size * sizeofPlanet ∧
    (AddPlanets freshPool blankMemory [earth, sun, mars]).1.pool_array 1 + sizeofPlanet ≤
      (AddPlanets freshPool blankMemory [earth, sun, mars]).1.pool_array 2 :=
  have h := pool_storage_invariant 1 2 4096 (fun _ => 0) freshPool blankMemory rfl (by decide)
    [earth, sun, mars]
  ⟨rfl, by decide, h.2.1, h.2.2.2.2 1 2 (by decide) (by decide)⟩

/-- C15. Bounded name copy: a successful `AddPlanet` (pool reached from `InitPlanetPool`,
backing block obtained, fewer than `MAX_PLANETS` insertions so far) given a name of `L` bytes,
none of them NUL, returns `1` and stores as name the first `min L 29` bytes of it: the stored
name has `min L 29` bytes, none of them NUL, so that its terminator fits the 30 bytes of the
field; a name of at most 29 bytes is stored as it is, a longer one cut down to its first 29. -/
theorem name_copy_is_bounded {F : Type} (mallocPool mallocArena mallocMemory : Nat)
    (junk : Fin MAX_PLANETS → Nat) (pool0 : PlanetPool) (mem0 : Memory F)
    (hinit : InitPlanetPool mallocPool mallocArena mallocMemory junk = some pool0)
    (hmem : mallocMemory ≠ NULL) (ps : List (Planet F)) (p : Planet F)
    (hlen : ps.length < MAX_PLANETS) (hname : ∀ c ∈ p.name, c ≠ 0) :
    (AddPlanet (AddPlanets pool0 mem0 ps).1 (AddPlanets pool0 mem0 ps).2 p).1 = 1 ∧
    ((AddPlanet (AddPlanets pool0 mem0 ps).1 (AddPlanets pool0 mem0 ps).2 p).2.2
      ((AddPlanet (AddPlanets pool0 mem0 ps).1 (AddPlanets pool0 mem0 ps).2 p).2.1.slot
        ps.length)).name = p.name.take (min p.name.length 29) ∧
    (p.name.take (min p.name.length 29)).length = min p.name.length 29 ∧
    (p.name.take (min p.name.length 29)).length + 1 ≤ sizeofName ∧
    (∀ c ∈ p.name.take (min p.name.length 29), c ≠ 0) ∧
    (p.name.length ≤ 29 → p.name.take (min p.name.length 29) = p.name) ∧
    (29 < p.name.length → p.name.take (min p.name.length 29) = p.name.take 29) := by
  have hholds := PoolHolds_AddPlanets hmem ps pool0 mem0 [] (PoolHolds_init mem0 hinit)
    (by simp only [List.length_nil]; omega)
  obtain ⟨hinv, hsize, _⟩ := hholds
  simp only [List.nil_append] at hsize
  have hlt : (AddPlanets pool0 mem0 ps).1.pool_size < MAX_PLANETS := by rw [hsize]; exact hlen
  have htake : p.name.take (min p.name.length 29) = p.name.take 29 := by
    by_cases h : p.name.length ≤ 29
    · rw [Nat.min_eq_left h, List.take_of_length_le (Nat.le_refl _), List.take_of_length_le h]
    · rw [Nat.min_eq_right (by omega)]
  refine ⟨?_, ?_, ?_, ?_, ?_, ?_, fun _ => htake⟩
  · rw [AddPlanet_of_inv _ p hmem hinv hlt]
  · rw [AddPlanet_of_inv _ p hmem hinv hlt, PlanetPool.slot_eq _ _ hlen]
    have hidx : (⟨ps.length, hlen⟩ : Fin MAX_PLANETS) =
        ⟨(AddPlanets pool0 mem0 ps).1.pool_size, hlt⟩ := Fin.ext hsize.symm
    dsimp only
    rw [hidx, Function.update_same, Function.update_same, htake]
    exact strlcpy_of_cstring p.name hname
  · rw [List.length_take]; omega
  · rw [List.length_take]; simp only [sizeofName]; omega
  · intro c hc
    exact hname c (List.mem_of_mem_take hc)
  · intro h
    rw [htake, List.take_of_length_le h]

/-- C15 at a name of 40 letters, inserted after `earth`: the call returns `1`. -/
theorem name_copy_is_bounded_witness :
    InitPlanetPool 1 2 4096 (fun _ => 0) = some freshPool ∧ (4096 : Nat) ≠ NULL ∧
    [earth].length < MAX_PLANETS ∧ (∀ c ∈ longNamed.name, c ≠ 0) ∧
    (AddPlanet (AddPlanets freshPool blankMemory [earth]).1
      (AddPlanets freshPool blankMemory [earth]).2 longNamed).1 = 1 ∧
    ((AddPlanet (AddPlanets freshPool blankMemory [earth]).1
        (AddPlanets freshPool blankMemory [earth]).2 longNamed).2.2
      ((AddPlanet (AddPlanets freshPool blankMemory [earth]).1
        (AddPlanets freshPool blankMemory [earth]).2 longNamed).2.1.slot
          [earth].length)).name = longNamed.name.take (min longNamed.name.length 29) :=
  have hname : ∀ c ∈ longNamed.name, c ≠ 0 := by
    intro c hc
    have h65 : c = 65 := List.eq_of_mem_replicate hc
    omega
  have h := name_copy_is_bounded 1 2 4096 (fun _ => 0) freshPool blankMemory rfl (by decide)
    [earth] longNamed (by decide) hname
  ⟨rfl, by decide, by decide, hname, h.1, h.2.1⟩

/-- C16, at the failing input. The pool record and the arena header are allocated (addresses
`1` and `2`) and the `malloc` of the backing block inside `InitArena` returns `NULL`:
`InitPlanetPool` does not return `NULL` but an empty pool whose arena has `memory = NULL`,
whereas a failure of either of the first two allocations makes it return `NULL`. On that pool
the first `AddPlanet` fails with `-1` and moves `used` from 0 to 64. -/
theorem InitPlanetPool_ignores_backing_failure :
    InitPlanetPool 1 2 NULL (fun _ => 0) =
      some { pool_array := fun _ => 0, pool_size := 0, arena := ⟨6400, 0, NULL⟩ } ∧
    InitPlanetPool 1 2 NULL (fun _ => 0) ≠ none ∧
    InitPlanetPool NULL 2 4096 (fun _ => 0) = none ∧
    InitPlanetPool 1 NULL 4096 (fun _ => 0) = none ∧
    (AddPlanet { pool_array := fun _ => 0, pool_size := 0, arena := ⟨6400, 0, NULL⟩ }
      blankMemory earth).1 = -1 ∧
    (AddPlanet { pool_array := fun _ => 0, pool_size := 0, arena := ⟨6400, 0, NULL⟩ }
      blankMemory earth).2.1.arena.used = 64 := by
  refine ⟨rfl, ?_, rfl, rfl, by decide, by decide⟩
  exact fun h => Option.noConfusion (show some _ = none from h)

/-! ## Pairwise update: symmetry and order -/

/-- Both records after `UpdatePairwise` on two finite planets at non-zero finite distance `d`:
velocities and positions term by term, the other fields as they were. -/
theorem UpdatePairwise_eval {F : Type} [Field F] [DecidableEq F]
    (distanceMagnitude : Vector2 F → CFloat F) (planet1 planet2 : Planet F)
    (m1 m2 x1 y1 x2 y2 vx1 vy1 vx2 vy2 d : F)
    (hm1 : planet1.mass = .fin m1) (hm2 : planet2.mass = .fin m2)
    (hp1 : planet1.pos = ⟨.fin x1, .fin y1⟩) (hp2 : planet2.pos = ⟨.fin x2, .fin y2⟩)
    (hv1 : planet1.velo = ⟨.fin vx1, .fin vy1⟩) (hv2 : planet2.velo = ⟨.fin vx2, .fin vy2⟩)
    (hmag : distanceMagnitude ⟨.fin (x2 - x1), .fin (y2 - y1)⟩ = .fin d)
    (hm1z : m1 ≠ 0) (hm2z : m2 ≠ 0) (hdz : d ≠ 0) :
    UpdatePairwise distanceMagnitude planet1 planet2 =
      ({ planet1 with
          velo := ⟨.fin (vx1 + 10 * m1 * m2 / (d * d) * ((x2 - x1) / d) / m1),
                   .fin (vy1 + 10 * m1 * m2 / (d * d) * ((y2 - y1) / d) / m1)⟩
          pos := ⟨.fin (x1 + (vx1 + 10 * m1 * m2 / (d * d) * ((x2 - x1) / d) / m1)),
                  .fin (y1 + (vy1 + 10 * m1 * m2 / (d * d) * ((y2 - y1) / d) / m1))⟩ },
       { planet2 with
          velo := ⟨.fin (vx2 + -(10 * m1 * m2 / (d * d)) * ((x2 - x1) / d) / m2),
                   .fin (vy2 + -(10 * m1 * m2 / (d * d)) * ((y2 - y1) / d) / m2)⟩
          pos := ⟨.fin (x2 + (vx2 + -(10 * m1 * m2 / (d * d)) * ((x2 - x1) / d) / m2)),
                  .fin (y2 + (vy2 + -(10 * m1 * m2 / (d * d)) * ((y2 - y1) / d) / m2))⟩ }) := by
  have hdd : d * d ≠ 0 := mul_ne_zero hdz hdz
  simp only [UpdatePairwise, GRAVITY, hm1, hm2, hp1, hp2, hv1, hv2, CFloat.fin_sub_fin, hmag,
    CFloat.fin_mul_fin, CFloat.fin_div_fin _ hdd, CFloat.fin_div_fin _ hdz,
    CFloat.fin_div_fin _ hm1z, CFloat.fin_div_fin _ hm2z, CFloat.neg_fin, CFloat.fin_add_fin]

/-- Two planets at finite positions whose distance has magnitude zero: both records come out
with non-finite velocity and position. -/
theorem UpdatePairwise_zero_magnitude {F : Type} [Field F] [DecidableEq F]
    (distanceMagnitude : Vector2 F → CFloat F) (planet1 planet2 : Planet F) (x1 y1 x2 y2 : F)
    (hp1 : planet1.pos = ⟨.fin x1, .fin y1⟩) (hp2 : planet2.pos = ⟨.fin x2, .fin y2⟩)
    (hmag : distanceMagnitude ⟨.fin (x2 - x1), .fin (y2 - y1)⟩ = .fin 0) :
    UpdatePairwise distanceMagnitude planet1 planet2 =
      ({ planet1 with velo := ⟨.nan, .nan⟩, pos := ⟨.nan, .nan⟩ },
       { planet2 with velo := ⟨.nan, .nan⟩, pos := ⟨.nan, .nan⟩ }) := by
  simp only [UpdatePairwise, hp1, hp2, CFloat.fin_sub_fin, hmag, CFloat.fin_div_zero,
    CFloat.mul_nan, CFloat.nan_div, CFloat.add_nan]

/-- C20. Argument symmetry of the pairwise update: for two planets `p`, `q` with non-zero
masses, `distanceMagnitude` being the Euclidean length both of `q.pos - p.pos` and of
`p.pos - q.pos`, the calls `UpdatePairwise(p, q)` and `UpdatePairwise(q, p)` leave `p` in the
same state and `q` in the same state. -/
theorem pair_update_symmetric {F : Type} [LinearOrderedField F]
    (distanceMagnitude : Vector2 F → CFloat F) (p q : Planet F)
    (m1 m2 x1 y1 x2 y2 vx1 vy1 vx2 vy2 d e : F)
    (hm1 : p.mass = .fin m1) (hm2 : q.mass = .fin m2)
    (hp1 : p.pos = ⟨.fin x1, .fin y1⟩) (hp2 : q.pos = ⟨.fin x2, .fin y2⟩)
    (hv1 : p.velo = ⟨.fin vx1, .fin vy1⟩) (hv2 : q.velo = ⟨.fin vx2, .fin vy2⟩)
    (hm1z : m1 ≠ 0) (hm2z : m2 ≠ 0)
    (hmag : distanceMagnitude ⟨.fin (x2 - x1), .fin (y2 - y1)⟩ = .fin d)
    (hd0 : 0 ≤ d) (hd : d * d = (x2 - x1) * (x2 - x1) + (y2 - y1) * (y2 - y1))
    (hmag2 : distanceMagnitude ⟨.fin (x1 - x2), .fin (y1 - y2)⟩ = .fin e)
    (he0 : 0 ≤ e) (he : e * e = (x1 - x2) * (x1 - x2) + (y1 - y2) * (y1 - y2)) :
    (UpdatePairwise distanceMagnitude p q).1 = (UpdatePairwise distanceMagnitude q p).2 ∧
    (UpdatePairwise distanceMagnitude p q).2 = (UpdatePairwise distanceMagnitude q p).1 := by
  have hde : d = e := by
    have h : d * d = e * e := by rw [hd, he]; ring
    exact (mul_self_inj hd0 he0).mp h
  subst hde
  by_cases hdz : d = 0
  · subst hdz
    rw [UpdatePairwise_zero_magnitude distanceMagnitude p q x1 y1 x2 y2 hp1 hp2 hmag,
      UpdatePairwise_zero_magnitude distanceMagnitude q p x2 y2 x1 y1 hp2 hp1 hmag2]
    exact ⟨rfl, rfl⟩
  · rw [UpdatePairwise_eval distanceMagnitude p q m1 m2 x1 y1 x2 y2 vx1 vy1 vx2 vy2 d hm1 hm2
        hp1 hp2 hv1 hv2 hmag hm1z hm2z hdz,
      UpdatePairwise_eval distanceMagnitude q p m2 m1 x2 y2 x1 y1 vx2 vy2 vx1 vy1 d hm2 hm1
        hp2 hp1 hv2 hv1 hmag2 hm2z hm1z hdz]
    have e1 : ∀ (v t u : F), t = -u →
        v + 10 * m1 * m2 / (d * d) * (u / d) / m1 =
          v + -(10 * m2 * m1 / (d * d)) * (t / d) / m1 := by
      intro v t u h; subst h; ring
    have e2 : ∀ (v t u : F), t = -u →
        v + -(10 * m1 * m2 / (d * d)) * (u / d) / m2 =
          v + 10 * m2 * m1 / (d * d) * (t / d) / m2 := by
      intro v t u h; subst h; ring
    simp only [Prod.fst, Prod.snd]
    rw [e1 vx1 (x1 - x2) (x2 - x1) (by ring), e1 vy1 (y1 - y2) (y2 - y1) (by ring),
      e2 vx2 (x1 - x2) (x2 - x1) (by ring), e2 vy2 (y1 - y2) (y2 - y1) (by ring)]
    exact ⟨rfl, rfl⟩

/-- C20 at `bodyA` and `bodyB`: the distance vectors `(3, 4)` and `(-3, -4)` both have
length 5. -/
theorem pair_update_symmetric_witness :
    euclideanMagnitude ⟨.fin (3 - 0), .fin (4 - 0)⟩ = .fin 5 ∧
    euclideanMagnitude ⟨.fin (0 - 3), .fin (0 - 4)⟩ = .fin 5 ∧
    (UpdatePairwise euclideanMagnitude bodyA bodyB).1 =
      (UpdatePairwise euclideanMagnitude bodyB bodyA).2 ∧
    (UpdatePairwise euclideanMagnitude bodyA bodyB).2 =
      (UpdatePairwise euclideanMagnitude bodyB bodyA).1 :=
  have h1 : euclideanMagnitude ⟨.fin (3 - 0), .fin (4 - 0)⟩ = .fin 5 :=
    euclideanMagnitude_of_sq _ _ 5 (by norm_num) (by norm_num)
  have h2 : euclideanMagnitude ⟨.fin (0 - 3), .fin (0 - 4)⟩ = .fin 5 :=
    euclideanMagnitude_of_sq _ _ 5 (by norm_num) (by norm_num)
  ⟨h1, h2,
    pair_update_symmetric euclideanMagnitude bodyA bodyB 2 5 0 0 3 4 1 0 0 (-1) 5 5 rfl rfl rfl
      rfl rfl rfl (by norm_num) (by norm_num) h1 (by norm_num) (by norm_num) h2 (by norm_num)
      (by norm_num)⟩


/-- A step over a pool of three planets at three different addresses, assertion compiled out:
the pairs `(0, 1)`, `(0, 2)`, `(1, 2)` are updated in that order, each on the records the
updates before it left. -/
theorem UpdateTrajectories_three {F : Type} [Field F] [DecidableEq F]
    (distanceMagnitude : Vector2 F → CFloat F) (pool : PlanetPool)
    (hsize : pool.pool_size ≤ MAX_PLANETS) (mem : Memory F) (h3 : pool.pool_size = 3)
    (h01 : pool.slot 0 ≠ pool.slot 1) (h02 : pool.slot 0 ≠ pool.slot 2)
    (h12 : pool.slot 1 ≠ pool.slot 2) :
    ∃ mem1 : Memory F,
      UpdateTrajectories true distanceMagnitude pool hsize mem = some mem1 ∧
      mem1 (pool.slot 0) =
        (UpdatePairwise distanceMagnitude
          (UpdatePairwise distanceMagnitude (mem (pool.slot 0)) (mem (pool.slot 1))).1
          (mem (pool.slot 2))).1 ∧
      mem1 (pool.slot 1) =
        (UpdatePairwise distanceMagnitude
          (UpdatePairwise distanceMagnitude (mem (pool.slot 0)) (mem (pool.slot 1))).2
          (UpdatePairwise distanceMagnitude
            (UpdatePairwise distanceMagnitude (mem (pool.slot 0)) (mem (pool.slot 1))).1
            (mem (pool.slot 2))).2).1 ∧
      mem1 (pool.slot 2) =
        (UpdatePairwise distanceMagnitude
          (UpdatePairwise distanceMagnitude (mem (pool.slot 0)) (mem (pool.slot 1))).2
          (UpdatePairwise distanceMagnitude
            (UpdatePairwise distanceMagnitude (mem (pool.slot 0)) (mem (pool.slot 1))).1
            (mem (pool.slot 2))).2).2 := by
  have hpairs : loopPairs pool.pool_size = [(0, 1), (0, 2), (1, 2)] := by
    rw [h3]; decide
  refine ⟨_, UpdateTrajectories_eq_loopPairs distanceMagnitude pool hsize mem, ?_⟩
  rw [hpairs]
  simp only [foldPairs, List.foldl_cons, List.foldl_nil]
  rw [UpdatePairwiseAt_eq distanceMagnitude mem h01]
  rw [UpdatePairwiseAt_eq distanceMagnitude _ h02]
  rw [UpdatePairwiseAt_eq distanceMagnitude _ h12]
  simp [Function.update, h01, h02, h12, Ne.symm h01, Ne.symm h02, Ne.symm h12]

/-- Planet `lineA` after the pair updates `(lineA, lineB)` then `(lineA, lineC)`: its velocity
is `201/102010` along `x`. -/
theorem lineA_after_B_then_C :
    (UpdatePairwise euclideanMagnitude
      (UpdatePairwise euclideanMagnitude lineA lineB).1 lineC).1.velo =
      ⟨.fin (201 / 102010), .fin 0⟩ := by
  have h1 := UpdatePairwise_eval euclideanMagnitude lineA lineB 1 1 0 0 10 0 0 0 0 0 10
    rfl rfl rfl rfl rfl rfl
    (euclideanMagnitude_of_sq _ _ 10 (by norm_num) (by norm_num))
    (by norm_num) (by norm_num) (by norm_num)
  rw [h1]
  have h2 := UpdatePairwise_eval euclideanMagnitude
    { lineA with
      velo := ⟨.fin (0 + 10 * 1 * 1 / (10 * 10) * ((10 - 0) / 10) / 1),
               .fin (0 + 10 * 1 * 1 / (10 * 10) * ((0 - 0) / 10) / 1)⟩
      pos := ⟨.fin (0 + (0 + 10 * 1 * 1 / (10 * 10) * ((10 - 0) / 10) / 1)),
              .fin (0 + (0 + 10 * 1 * 1 / (10 * 10) * ((0 - 0) / 10) / 1))⟩ }
    lineC 1 1 _ _ (-10) 0 _ _ 0 0 (101 / 10) rfl rfl rfl rfl rfl rfl
    (euclideanMagnitude_of_sq _ _ (101 / 10) (by norm_num) (by norm_num))
    (by norm_num) (by norm_num) (by norm_num)
  rw [h2]
  simp only [Vector2.mk.injEq, CFloat.fin.injEq]
  constructor <;> norm_num

/-- Planet `lineA` after the pair updates `(lineA, lineC)` then `(lineA, lineB)`: its velocity
is `-201/102010` along `x`. -/
theorem lineA_after_C_then_B :
    (UpdatePairwise euclideanMagnitude
      (UpdatePairwise euclideanMagnitude lineA lineC).1 lineB).1.velo =
      ⟨.fin (-201 / 102010), .fin 0⟩ := by
  have h1 := UpdatePairwise_eval euclideanMagnitude lineA lineC 1 1 0 0 (-10) 0 0 0 0 0 10
    rfl rfl rfl rfl rfl rfl
    (euclideanMagnitude_of_sq _ _ 10 (by norm_num) (by norm_num))
    (by norm_num) (by norm_num) (by norm_num)
  rw [h1]
  have h2 := UpdatePairwise_eval euclideanMagnitude
    { lineA with
      velo := ⟨.fin (0 + 10 * 1 * 1 / (10 * 10) * ((-10 - 0) / 10) / 1),
               .fin (0 + 10 * 1 * 1 / (10 * 10) * ((0 - 0) / 10) / 1)⟩
      pos := ⟨.fin (0 + (0 + 10 * 1 * 1 / (10 * 10) * ((-10 - 0) / 10) / 1)),
              .fin (0 + (0 + 10 * 1 * 1 / (10 * 10) * ((0 - 0) / 10) / 1))⟩ }
    lineB 1 1 _ _ 10 0 _ _ 0 0 (101 / 10) rfl rfl rfl rfl rfl rfl
    (euclideanMagnitude_of_sq _ _ (101 / 10) (by norm_num) (by norm_num))
    (by norm_num) (by norm_num) (by norm_num)
  rw [h2]
  simp only [Vector2.mk.injEq, CFloat.fin.injEq]
  constructor <;> norm_num

/-- C18. Order dependence: `lineA`, `lineB`, `lineC` have mass 1 and lie at three different
positions. Updating the pair `(lineA, lineB)` and then `(lineA, lineC)` leaves `lineA` with
velocity `201/102010` along `x`; updating `(lineA, lineC)` first and `(lineA, lineB)` second
leaves it with `-201/102010`. Accordingly one step (assertion compiled out) over the pool
with insertion order `lineA, lineB, lineC` and one over the pool with insertion order
`lineA, lineC, lineB` leave the record of `lineA` with different velocities. -/
theorem update_order_matters :
    (lineA.mass = .fin 1 ∧ lineB.mass = .fin 1 ∧ lineC.mass = .fin 1 ∧ (0 : ℚ) < 1) ∧
    (lineA.pos ≠ lineB.pos ∧ lineA.pos ≠ lineC.pos ∧ lineB.pos ≠ lineC.pos) ∧
    (UpdatePairwise euclideanMagnitude
        (UpdatePairwise euclideanMagnitude lineA lineB).1 lineC).1 ≠
      (UpdatePairwise euclideanMagnitude
        (UpdatePairwise euclideanMagnitude lineA lineC).1 lineB).1 ∧
    (linePoolABC.2 (linePoolABC.1.slot 0) = lineA ∧
     linePoolACB.2 (linePoolACB.1.slot 0) = lineA) ∧
    (∃ mem1 mem2 : Memory ℚ,
      UpdateTrajectories true euclideanMagnitude linePoolABC.1 (by decide) linePoolABC.2 =
        some mem1 ∧
      UpdateTrajectories true euclideanMagnitude linePoolACB.1 (by decide) linePoolACB.2 =
        some mem2 ∧
      (mem1 (linePoolABC.1.slot 0)).velo = ⟨.fin (201 / 102010), .fin 0⟩ ∧
      (mem2 (linePoolACB.1.slot 0)).velo = ⟨.fin (-201 / 102010), .fin 0⟩ ∧
      mem1 (linePoolABC.1.slot 0) ≠ mem2 (linePoolACB.1.slot 0)) := by
  have hne : (⟨.fin (201 / 102010), .fin 0⟩ : Vector2 ℚ) ≠ ⟨.fin (-201 / 102010), .fin 0⟩ := by
    intro h
    simp only [Vector2.mk.injEq, CFloat.fin.injEq] at h
    norm_num at h
  refine ⟨⟨rfl, rfl, rfl, by norm_num⟩, ⟨by decide, by decide, by decide⟩, ?_, ⟨rfl, rfl⟩, ?_⟩
  · intro h
    have hv := congrArg Planet.velo h
    rw [lineA_after_B_then_C, lineA_after_C_then_B] at hv
    exact hne hv
  · obtain ⟨mem1, hstep1, hrec1, _, _⟩ := UpdateTrajectories_three euclideanMagnitude
      linePoolABC.1 (by decide) linePoolABC.2 rfl (by decide) (by decide) (by decide)
    obtain ⟨mem2, hstep2, hrec2, _, _⟩ := UpdateTrajectories_three euclideanMagnitude
      linePoolACB.1 (by decide) linePoolACB.2 rfl (by decide) (by decide) (by decide)
    have e1 : mem1 (linePoolABC.1.slot 0) =
        (UpdatePairwise euclideanMagnitude
          (UpdatePairwise euclideanMagnitude lineA lineB).1 lineC).1 := hrec1
    have e2 : mem2 (linePoolACB.1.slot 0) =
        (UpdatePairwise euclideanMagnitude
          (UpdatePairwise euclideanMagnitude lineA lineC).1 lineB).1 := hrec2
    refine ⟨mem1, mem2, hstep1, hstep2, ?_, ?_, ?_⟩
    · rw [e1]; exact lineA_after_B_then_C
    · rw [e2]; exact lineA_after_C_then_B
    · intro h
      have hv := congrArg Planet.velo h
      rw [e1, e2, lineA_after_B_then_C, lineA_after_C_then_B] at hv
      exact hne hv


/-! ## End-to-end scenario -/

/-- C2, at the failing input. On `nullPool`, the pool `InitPlanetPool` returns when the `malloc`
of the backing block fails, `pool_size` is 0, far below `MAX_PLANETS`; yet `ArenaAllocate`
returns `NULL` (the address `memory + used = NULL + 0`), so `AddPlanet` fails with `-1` through
its second failure branch, and the failing call is no no-op: `used` has moved from 0 to 64. -/
theorem AddPlanet_fails_below_capacity_without_backing_block :
    InitPlanetPool 1 2 NULL (fun _ => 0) = some nullPool ∧
    AddPlanets nullPool blankMemory [] = (nullPool, blankMemory) ∧
    nullPool.pool_size = 0 ∧ nullPool.pool_size ≠ MAX_PLANETS ∧
    (ArenaAllocate nullPool.arena sizeofPlanet).1 = NULL ∧
    (AddPlanet nullPool blankMemory earth).1 = -1 ∧
    nullPool.arena.used = 0 ∧
    (AddPlanet nullPool blankMemory earth).2.1.arena.used = 64 := by
  refine ⟨rfl, rfl, rfl, by decide, by decide, by decide, rfl, by decide⟩

/-- C5, at the failing input. `nullPool`, the pool `InitPlanetPool` returns when the `malloc` of
the backing block fails, has `pool_size = 0 < MAX_PLANETS`; `AddPlanet` on it returns `-1`,
`pool_size` stays 0 instead of becoming 1, slot 0 keeps the pointer it had and the memory holds
no copy of the planet: it is the memory from before the call. -/
theorem AddPlanet_stores_nothing_without_backing_block :
    InitPlanetPool 1 2 NULL (fun _ => 0) = some nullPool ∧
    nullPool.pool_size < MAX_PLANETS ∧
    (AddPlanet nullPool blankMemory earth).1 = -1 ∧
    (AddPlanet nullPool blankMemory earth).2.1.pool_size = 0 ∧
    (AddPlanet nullPool blankMemory earth).2.1.pool_size ≠ nullPool.pool_size + 1 ∧
    (AddPlanet nullPool blankMemory earth).2.1.pool_array = nullPool.pool_array ∧
    (AddPlanet nullPool blankMemory earth).2.2 = blankMemory ∧
    (blankMemory ((AddPlanet nullPool blankMemory earth).2.1.pool_array 0)).mass ≠
      earth.mass := by
  refine ⟨rfl, by decide, by decide, by decide, by decide, rfl, rfl, by decide⟩

/-- C14, at the failing input. After one `AddPlanet` on `nullPool`, the pool `InitPlanetPool`
returns when the `malloc` of the backing block fails, the arena has `used = 64` while
`pool_size = 0`: `used` is not `pool_size * sizeof(Planet)`, and the arena's base is `NULL`,
so its block is no storage for any record. -/
theorem storage_invariant_broken_without_backing_block :
    InitPlanetPool 1 2 NULL (fun _ => 0) = some nullPool ∧
    (AddPlanets nullPool blankMemory [earth]).1.pool_size = 0 ∧
    (AddPlanets nullPool blankMemory [earth]).1.arena.used = 64 ∧
    (AddPlanets nullPool blankMemory [earth]).1.arena.used ≠
      (AddPlanets nullPool blankMemory [earth]).1.pool_size * sizeofPlanet ∧
    (AddPlanets nullPool blankMemory [earth]).1.arena.memory = NULL := by
  refine ⟨rfl, by decide, by decide, by decide, rfl⟩


end BodyBench
